import Mathlib

/-!
# ESP32-IDF-Tutorial

Shallow embeddings of two of the example programs: the PWM breathing LED of
`gpio_pwm/main/gpio_pwm.c` and the multitask sensor pipeline of
`multitask/main/multitask.h`. All definitions come first, the lemmas and the
claims follow.
-/


/-!
# The PWM breathing LED of `gpio_pwm/main/gpio_pwm.c`

`uint32_t` values are naturals below `2 ^ 32` with wrap-around written out.
-/

namespace GpioPwm

/-- Bit count of the ESP-IDF enumerator `LEDC_TIMER_10_BIT` that line 11
gives to `LEDC_TIMER_RESOLUTION`. -/
def LEDC_TIMER_RESOLUTION : Nat := 10

/-- Number of values of a `uint32_t`. -/
def UINT32_SIZE : Nat := 2 ^ 32

/-- Line 63: `(1 << LEDC_TIMER_RESOLUTION) - 1` stored in a `uint32_t`. -/
def max_duty : Nat := ((1 <<< LEDC_TIMER_RESOLUTION) - 1) % UINT32_SIZE

/-- Which `for` loop of `pwm_breath_led_task` tests its condition next: the
one at line 68 or the one at line 78. -/
inductive Ramp where
  | up
  | down
deriving DecidableEq, Repr

/-- The task between loop iterations: the loop it is in and `current_duty`. -/
structure PwmState where
  ramp : Ramp
  current_duty : Nat
deriving DecidableEq, Repr

/-- First entry into the `while (1)` body: line 68 sets `current_duty = 0`. -/
def PwmState.init : PwmState := { ramp := Ramp.up, current_duty := 0 }

/-- One test of a loop condition and what follows. When the condition holds
the body runs (the value passed to `ledc_set_duty` is returned) and then the
loop's update, on `uint32_t`; when it fails control moves to the other loop's
initialisation. Line 78 tests `current_duty >= 0` on an unsigned value. -/
def pwm_breath_led_task_step (s : PwmState) : Option Nat × PwmState :=
  match s.ramp with
  | Ramp.up =>
    if s.current_duty ≤ max_duty then
      (some s.current_duty, { ramp := Ramp.up, current_duty := (s.current_duty + 1) % UINT32_SIZE })
    else (none, { ramp := Ramp.down, current_duty := max_duty })
  | Ramp.down =>
    if s.current_duty ≥ 0 then
      (some s.current_duty,
        { ramp := Ramp.down, current_duty := (s.current_duty + UINT32_SIZE - 1) % UINT32_SIZE })
    else (none, { ramp := Ramp.up, current_duty := 0 })

/-- State after `n` steps from `s`. -/
def pwm_breath_led_task_after : Nat → PwmState → PwmState
  | 0, s => s
  | n + 1, s => pwm_breath_led_task_after n (pwm_breath_led_task_step s).2

/-- The values passed to `ledc_set_duty` during `n` steps from `s`, in
order. -/
def pwm_breath_led_task_duties : Nat → PwmState → List Nat
  | 0, _ => []
  | n + 1, s =>
    match (pwm_breath_led_task_step s).1 with
    | some d => d :: pwm_breath_led_task_duties n (pwm_breath_led_task_step s).2
    | none => pwm_breath_led_task_duties n (pwm_breath_led_task_step s).2

/-- One period of the ramp as the comments at lines 67 and 77 describe it:
0, 1, ..., 1023 and then 1023, 1022, ..., 0. -/
def breath_period : List Nat := List.range 1024 ++ (List.range 1024).reverse

end GpioPwm

/-!
# The multitask sensor pipeline

A shallow embedding of `multitask/main/multitask.h`: the producer
`sensor_collect_task`, the aggregator `data_process_task`, the controller
`console_print_task` and the setup routine `test_multi_task`.

Floating point values are taken as exact rationals and the C `int`
`sample_count` as an unbounded integer (signed overflow is undefined in C and
is out of reach of the runs considered here).
-/

namespace MultiTask

/-! ## Data model -/

/-- Queue element `sensor_data_t` (multitask.h lines 7-11). -/
structure sensor_data_t where
  temperature : ℚ
  humidity : ℚ
  sample_id : Int
deriving DecidableEq, Repr

/-- The three file-scope statics `temp_avg`, `humi_avg`, `sample_count`
(multitask.h lines 19-21). -/
structure Shared where
  temp_avg : ℚ
  humi_avg : ℚ
  sample_count : Int
deriving DecidableEq, Repr

/-- Initial values of the statics: `0.0f`, `0.0f`, `0`. -/
def Shared.init : Shared :=
  { temp_avg := 0, humi_avg := 0, sample_count := 0 }

/-! ## Aggregator: `data_process_task` -/

/-- The critical section of `data_process_task` (lines 61-63): both averages
are recomputed with the old `sample_count`, then the count is incremented. -/
def data_process_update (s : Shared) (recv_data : sensor_data_t) : Shared :=
  let temp_avg := (s.temp_avg * s.sample_count + recv_data.temperature) / (s.sample_count + 1)
  let humi_avg := (s.humi_avg * s.sample_count + recv_data.humidity) / (s.sample_count + 1)
  { temp_avg := temp_avg, humi_avg := humi_avg, sample_count := s.sample_count + 1 }

/-- The aggregator fed a list of readings one by one. -/
def data_process_run (s : Shared) (l : List sensor_data_t) : Shared :=
  l.foldl data_process_update s

/-- Sum of the temperatures of a list of readings. -/
def tempSum (l : List sensor_data_t) : ℚ := (l.map fun d => d.temperature).sum

/-- Sum of the humidities of a list of readings. -/
def humiSum (l : List sensor_data_t) : ℚ := (l.map fun d => d.humidity).sum

/-! ## Producer: `sensor_collect_task` -/

/-- The reading built at lines 28-30 from the two `rand()` results `r1`, `r2`
and the value of the shared `sample_count` read at line 30. -/
def synthesize (r1 r2 : Nat) (sample_count : Int) : sensor_data_t :=
  { temperature := 25 + ((r1 % 100 : Nat) : ℚ) / 10,
    humidity := 40 + ((r2 % 300 : Nat) : ℚ) / 10,
    sample_id := sample_count + 1 }

/-- Length given to `xQueueCreate` at line 109. -/
def SENSOR_QUEUE_LENGTH : Nat := 10

/-- Modelled from the spec: the FreeRTOS queue primitive behind `xQueueSend`
is a bounded FIFO (spec 4.4); the list holds the queued readings, oldest
first. A send succeeds iff a slot is free; no consumer runs during the
bounded wait, so a full queue makes the send fail. -/
def xQueueSend (capacity : Nat) (q : List sensor_data_t) (d : sensor_data_t) :
    List sensor_data_t × Bool :=
  if q.length < capacity then (q ++ [d], true) else (q, false)

/-- Modelled from the spec: the FreeRTOS queue primitive behind
`xQueueReceive` hands out the oldest queued reading (spec 4.4); `none` means
the caller stays blocked on an empty queue. -/
def xQueueReceive (q : List sensor_data_t) : Option (sensor_data_t × List sensor_data_t) :=
  match q with
  | [] => none
  | d :: rest => some (d, rest)

/-- What one producer cycle logs: `ESP_LOGD` at line 34 or `ESP_LOGE` at
line 37. -/
inductive CollectLog where
  | sent (d : sensor_data_t)
  | queue_full
deriving DecidableEq, Repr

/-! ## Controller: `console_print_task` -/

/-- Task control call issued by one controller cycle (lines 84 and 88). -/
inductive CtlAction where
  | none
  | vTaskSuspend
  | vTaskResume
deriving DecidableEq, Repr

/-- Lines 82-90. `c1` is the value of `sample_count` read at line 82 and `c2`
the value read at line 86; the result is the call issued and the new
`suspend_flag`. -/
def console_print_policy (suspend_flag : Int) (c1 c2 : Int) : CtlAction × Int :=
  if c1 > 20 ∧ suspend_flag = 0 then (CtlAction.vTaskSuspend, 1)
  else if suspend_flag = 1 ∧ c2 > 30 then (CtlAction.vTaskResume, 2)
  else (CtlAction.none, suspend_flag)

/-- Value of `suspend_flag` at the start of controller cycle `n`, when cycle
`i` reads the pair `obs i` of counts; the flag starts at `0` (line 79). -/
def console_print_flag (obs : Nat → Int × Int) : Nat → Int
  | 0 => 0
  | n + 1 => (console_print_policy (console_print_flag obs n) (obs n).1 (obs n).2).2

/-- The call issued on controller cycle `n`. -/
def console_print_action (obs : Nat → Int × Int) (n : Nat) : CtlAction :=
  (console_print_policy (console_print_flag obs n) (obs n).1 (obs n).2).1

/-! ## The pipeline at task-cycle granularity -/

/-- State of the pipeline between task cycles: queue contents, the shared
statics, the controller local `suspend_flag` and whether the task behind
`collect_task_handle` is suspended. -/
structure Pipeline where
  sensor_queue : List sensor_data_t
  shared : Shared
  suspend_flag : Int
  collect_suspended : Bool
deriving DecidableEq, Repr

/-- State right after `test_multi_task` has created everything. -/
def Pipeline.init : Pipeline :=
  { sensor_queue := [], shared := Shared.init, suspend_flag := 0, collect_suspended := false }

/-- The `data` that a producer cycle started in state `p` fills in at lines
28-30; line 30 reads the shared `sample_count`. -/
def sensor_collect_data (r1 r2 : Nat) (p : Pipeline) : sensor_data_t :=
  synthesize r1 r2 p.shared.sample_count

/-- One loop iteration of `sensor_collect_task` (lines 28-38). -/
def sensor_collect_cycle (r1 r2 : Nat) (p : Pipeline) : Pipeline × CollectLog :=
  let data := sensor_collect_data r1 r2 p
  if (xQueueSend SENSOR_QUEUE_LENGTH p.sensor_queue data).2 then
    ({ p with sensor_queue := (xQueueSend SENSOR_QUEUE_LENGTH p.sensor_queue data).1 },
      CollectLog.sent data)
  else (p, CollectLog.queue_full)

/-- Consecutive producer cycles with nothing else running in between; each
pair holds the two `rand()` results of one cycle. -/
def sensor_collect_run : List (Nat × Nat) → Pipeline → Pipeline × List CollectLog
  | [], p => (p, [])
  | r :: rs, p =>
    ((sensor_collect_run rs (sensor_collect_cycle r.1 r.2 p).1).1,
      (sensor_collect_cycle r.1 r.2 p).2 ::
        (sensor_collect_run rs (sensor_collect_cycle r.1 r.2 p).1).2)

/-- One loop iteration of `data_process_task` (lines 56-66); on an empty
queue the task stays blocked in `xQueueReceive` and nothing changes. -/
def data_process_cycle (p : Pipeline) : Pipeline :=
  match xQueueReceive p.sensor_queue with
  | none => p
  | some (recv_data, rest) =>
    { p with sensor_queue := rest, shared := data_process_update p.shared recv_data }

/-- One loop iteration of `console_print_task` (lines 82-99): the policy,
then the report of the shared state. -/
def console_print_cycle (p : Pipeline) : Pipeline × CtlAction × Shared :=
  let r := console_print_policy p.suspend_flag p.shared.sample_count p.shared.sample_count
  ({ p with
      suspend_flag := r.2,
      collect_suspended :=
        match r.1 with
        | CtlAction.vTaskSuspend => true
        | CtlAction.vTaskResume => false
        | CtlAction.none => p.collect_suspended },
    r.1, p.shared)

/-- Which task runs its next cycle. -/
inductive Sched where
  | collect (r1 r2 : Nat)
  | process
  | print
deriving DecidableEq, Repr

/-- One scheduling step; a suspended producer does not run. A step is a whole
loop iteration of one task: statements of different tasks are not interleaved
here, so no reading is ever dequeued but not yet counted between two steps
(the statement-level model is `Tasks`). -/
def Pipeline.step (p : Pipeline) : Sched → Pipeline
  | Sched.collect r1 r2 => if p.collect_suspended then p else (sensor_collect_cycle r1 r2 p).1
  | Sched.process => data_process_cycle p
  | Sched.print => (console_print_cycle p).1

/-- A schedule run from `p`. -/
def Pipeline.run (p : Pipeline) (sched : List Sched) : Pipeline :=
  sched.foldl Pipeline.step p

/-- Number of readings the aggregator consumes while `sched` runs from `p`. -/
def updatesDuring : Pipeline → List Sched → Nat
  | _, [] => 0
  | p, e :: es =>
    (if e = Sched.process ∧ p.sensor_queue ≠ [] then 1 else 0) + updatesDuring (p.step e) es

/-! ## Setup: `test_multi_task` -/

/-- The objects `test_multi_task` creates, in the order of its five calls. -/
inductive Created where
  | sensor_queue
  | data_mutex
  | CollectTask
  | ProcessTask
  | PrintTask
deriving DecidableEq, Repr

/-- Whether a created object is one of the three pipeline tasks. -/
def Created.isTask : Created → Bool
  | Created.CollectTask => true
  | Created.ProcessTask => true
  | Created.PrintTask => true
  | _ => false

/-- Lines 107-169. The arguments say whether each creation call would
succeed; the result lists what exists when the function returns and whether
the final "all tasks created" line was logged. Every failure branch only logs
and returns. -/
def test_multi_task (queue_ok mutex_ok collect_ok process_ok print_ok : Bool) :
    List Created × Bool :=
  if !queue_ok then ([], false)
  else if !mutex_ok then ([Created.sensor_queue], false)
  else if !collect_ok then ([Created.sensor_queue, Created.data_mutex], false)
  else if !process_ok then
    ([Created.sensor_queue, Created.data_mutex, Created.CollectTask], false)
  else if !print_ok then
    ([Created.sensor_queue, Created.data_mutex, Created.CollectTask, Created.ProcessTask], false)
  else
    ([Created.sensor_queue, Created.data_mutex, Created.CollectTask, Created.ProcessTask,
      Created.PrintTask], true)

/-- The pipeline tasks among the created objects. -/
def tasksCreated (queue_ok mutex_ok collect_ok process_ok print_ok : Bool) : List Created :=
  (test_multi_task queue_ok mutex_ok collect_ok process_ok print_ok).1.filter Created.isTask

/-- Calls `test_multi_task` can make on the objects of the pipeline and on
the log. `create obj ok` is the creation call for `obj` (`xQueueCreate`,
`xSemaphoreCreateMutex` or `xTaskCreatePinnedToCore`) and its outcome;
`delete obj` stands for `vQueueDelete`, `vSemaphoreDelete` or `vTaskDelete`;
`ESP_LOGE obj` is the error line about the failed creation of `obj` and
`ESP_LOGI` the final success line (line 167). -/
inductive SetupCall where
  | create (obj : Created) (ok : Bool)
  | delete (obj : Created)
  | ESP_LOGE (obj : Created)
  | ESP_LOGI
deriving DecidableEq, Repr

/-- Lines 107-169 as the sequence of calls made, in order, when the five
creation calls would return the given outcomes. Each failure branch is an
`ESP_LOGE` followed by `return`. -/
def test_multi_task_calls (queue_ok mutex_ok collect_ok process_ok print_ok : Bool) :
    List SetupCall :=
  SetupCall.create Created.sensor_queue queue_ok ::
    (if !queue_ok then [SetupCall.ESP_LOGE Created.sensor_queue]
     else SetupCall.create Created.data_mutex mutex_ok ::
      (if !mutex_ok then [SetupCall.ESP_LOGE Created.data_mutex]
       else SetupCall.create Created.CollectTask collect_ok ::
        (if !collect_ok then [SetupCall.ESP_LOGE Created.CollectTask]
         else SetupCall.create Created.ProcessTask process_ok ::
          (if !process_ok then [SetupCall.ESP_LOGE Created.ProcessTask]
           else SetupCall.create Created.PrintTask print_ok ::
            (if !print_ok then [SetupCall.ESP_LOGE Created.PrintTask]
             else [SetupCall.ESP_LOGI])))))

/-- The objects that exist after a sequence of calls, given those that
existed before: a successful creation adds its object, a deletion removes
it, nothing else changes the set. -/
def objectsAfter : List Created → List SetupCall → List Created
  | objs, [] => objs
  | objs, SetupCall.create obj true :: rest => objectsAfter (objs ++ [obj]) rest
  | objs, SetupCall.delete obj :: rest => objectsAfter (objs.erase obj) rest
  | objs, _ :: rest => objectsAfter objs rest

/-- The five objects in the order of their creation calls. -/
def setupOrder : List Created :=
  [Created.sensor_queue, Created.data_mutex, Created.CollectTask, Created.ProcessTask,
    Created.PrintTask]

/-- Number of creation calls that succeed before the first failure. -/
def leadingSuccesses (queue_ok mutex_ok collect_ok process_ok print_ok : Bool) : Nat :=
  ([queue_ok, mutex_ok, collect_ok, process_ok, print_ok].takeWhile fun ok => ok).length

/-! ## Event traces of the three task bodies -/

/-- The three shared statics. -/
inductive Var where
  | temp_avg
  | humi_avg
  | sample_count
deriving DecidableEq, Repr

/-- Calls and shared-variable accesses a task body performs. -/
inductive Event where
  | rand
  | read (v : Var)
  | write (v : Var)
  | xSemaphoreTake
  | xSemaphoreGive
  | xQueueSend
  | xQueueReceive
  | vTaskDelay
  | vTaskSuspend
  | vTaskResume
  | uxTaskGetStackHighWaterMark
  | esp_log
deriving DecidableEq, Repr

/-- One iteration of the loop of `sensor_collect_task` (lines 28-46).
`debug_log` says whether the log level lets `ESP_LOGD` print. -/
def sensor_collect_events (sent stack_low debug_log : Bool) : List Event :=
  [Event.rand, Event.rand, Event.read Var.sample_count, Event.xQueueSend]
    ++ (if sent then (if debug_log then [Event.esp_log] else []) else [Event.esp_log])
    ++ [Event.uxTaskGetStackHighWaterMark]
    ++ (if stack_low then [Event.esp_log] else [])
    ++ [Event.vTaskDelay]

/-- One iteration of the loop of `data_process_task` (lines 56-72).
`received` says whether `xQueueReceive` returned `pdPASS`; with `debug_log`
the `ESP_LOGD` at lines 68-69 evaluates its arguments. -/
def data_process_events (received debug_log : Bool) : List Event :=
  [Event.xQueueReceive]
    ++ (if received then
          [Event.xSemaphoreTake,
            Event.read Var.temp_avg, Event.read Var.sample_count, Event.read Var.sample_count,
            Event.write Var.temp_avg,
            Event.read Var.humi_avg, Event.read Var.sample_count, Event.read Var.sample_count,
            Event.write Var.humi_avg,
            Event.read Var.sample_count, Event.write Var.sample_count,
            Event.xSemaphoreGive]
          ++ (if debug_log then
                [Event.read Var.sample_count, Event.read Var.temp_avg, Event.read Var.humi_avg,
                  Event.esp_log]
              else [])
        else [])
    ++ [Event.vTaskDelay]

/-- One iteration of the loop of `console_print_task` (lines 82-101), with
`suspend_flag` at its start and the counts `c1`, `c2` read at lines 82, 86. -/
def console_print_events (suspend_flag c1 c2 : Int) : List Event :=
  [Event.read Var.sample_count]
    ++ (if c1 > 20 ∧ suspend_flag = 0 then [Event.esp_log, Event.vTaskSuspend]
        else if suspend_flag = 1 then
          [Event.read Var.sample_count]
            ++ (if c2 > 30 then [Event.esp_log, Event.vTaskResume] else [])
        else [])
    ++ [Event.xSemaphoreTake, Event.esp_log,
        Event.read Var.sample_count, Event.esp_log,
        Event.read Var.temp_avg, Event.esp_log,
        Event.read Var.humi_avg, Event.esp_log,
        Event.esp_log, Event.xSemaphoreGive, Event.vTaskDelay]

/-- Trace of a task whose loop body runs once per element of `inputs`. -/
def loop_events {α : Type} (body : α → List Event) : List α → List Event
  | [] => []
  | a :: rest => body a ++ loop_events body rest

/-- Whether every read or write of a shared static in the trace happens with
the lock held; `held` says whether the task holds it at the start. -/
def accessesLocked : Bool → List Event → Bool
  | _, [] => true
  | held, e :: es =>
    match e with
    | Event.xSemaphoreTake => accessesLocked true es
    | Event.xSemaphoreGive => accessesLocked false es
    | Event.read _ => held && accessesLocked held es
    | Event.write _ => held && accessesLocked held es
    | _ => accessesLocked held es

/-- The calls on which a task may block. -/
def Event.isBlocking : Event → Bool
  | Event.xQueueReceive => true
  | Event.xQueueSend => true
  | Event.vTaskDelay => true
  | Event.xSemaphoreTake => true
  | _ => false

/-- Walks a trace tracking whether the lock is held; `none` as soon as a
blocking call happens with the lock held, else the lock status at the end. -/
def lockWalk : Bool → List Event → Option Bool
  | held, [] => some held
  | held, e :: es =>
    if held && e.isBlocking then none
    else
      match e with
      | Event.xSemaphoreTake => lockWalk true es
      | Event.xSemaphoreGive => lockWalk false es
      | _ => lockWalk held es

/-! ## Aggregator and controller interleaved statement by statement -/

/-- Program points of `data_process_task`: about to run line 56, 58, 61, 62,
63, 66, 68 or 72. -/
inductive AggPc where
  | receive
  | take
  | set_temp
  | set_humi
  | incr
  | give
  | log
  | delay
deriving DecidableEq, Repr

/-- Program points of `console_print_task`: about to run lines 82-90, 93, 95,
96, 97, 99 or 101. -/
inductive CtlPc where
  | policy
  | take
  | log_count
  | log_temp
  | log_humi
  | give
  | delay
deriving DecidableEq, Repr

/-- The two tasks that use `data_mutex`. -/
inductive Holder where
  | aggregator
  | controller
deriving DecidableEq, Repr

/-- State of the two tasks between statements. `data_mutex` names the task
holding the lock. `seen_count` and `seen_temp` are the values the controller
has already printed in its current report; `reports` lists the triples it has
printed so far and `received` the readings the aggregator has dequeued so
far, both oldest first. -/
structure Sys where
  sensor_queue : List sensor_data_t
  shared : Shared
  data_mutex : Option Holder
  agg_pc : AggPc
  recv_data : sensor_data_t
  ctl_pc : CtlPc
  suspend_flag : Int
  seen_count : Int
  seen_temp : ℚ
  reports : List Shared
  received : List sensor_data_t

/-- Both tasks at the top of their loops, nothing queued, lock free. -/
def Sys.init : Sys :=
  { sensor_queue := [], shared := Shared.init, data_mutex := none,
    agg_pc := AggPc.receive, recv_data := ⟨0, 0, 0⟩,
    ctl_pc := CtlPc.policy, suspend_flag := 0, seen_count := 0, seen_temp := 0,
    reports := [], received := [] }

/-- Modelled from the spec: the mutual-exclusion lock behind
`xSemaphoreTake(data_mutex, portMAX_DELAY)` (spec 2 (c), blocking acquire).
The lock is granted only when no task holds it; `none` means the caller
stays blocked. -/
def xSemaphoreTake (data_mutex : Option Holder) (caller : Holder) : Option (Option Holder) :=
  match data_mutex with
  | none => some (some caller)
  | some _ => none

/-- Modelled from the spec: `xSemaphoreGive(data_mutex)` releases the lock. -/
def xSemaphoreGive (_data_mutex : Option Holder) : Option Holder := none

/-- Next statement of `data_process_task`. At `receive` the task stays
blocked while the queue is empty, at `take` while the lock is held. -/
def Sys.aggregator (s : Sys) : Sys :=
  match s.agg_pc with
  | AggPc.receive =>
    match xQueueReceive s.sensor_queue with
    | none => s
    | some (d, rest) =>
      { s with sensor_queue := rest, recv_data := d, received := s.received ++ [d],
               agg_pc := AggPc.take }
  | AggPc.take =>
    match xSemaphoreTake s.data_mutex Holder.aggregator with
    | some m => { s with data_mutex := m, agg_pc := AggPc.set_temp }
    | none => s
  | AggPc.set_temp =>
    { s with
        shared := { s.shared with
          temp_avg := (s.shared.temp_avg * s.shared.sample_count + s.recv_data.temperature)
            / (s.shared.sample_count + 1) },
        agg_pc := AggPc.set_humi }
  | AggPc.set_humi =>
    { s with
        shared := { s.shared with
          humi_avg := (s.shared.humi_avg * s.shared.sample_count + s.recv_data.humidity)
            / (s.shared.sample_count + 1) },
        agg_pc := AggPc.incr }
  | AggPc.incr =>
    { s with
        shared := { s.shared with sample_count := s.shared.sample_count + 1 },
        agg_pc := AggPc.give }
  | AggPc.give => { s with data_mutex := xSemaphoreGive s.data_mutex, agg_pc := AggPc.log }
  | AggPc.log => { s with agg_pc := AggPc.delay }
  | AggPc.delay => { s with agg_pc := AggPc.receive }

/-- Next statement of `console_print_task`. The three values of a report are read one statement at a
time and the triple is recorded when the last one is read. -/
def Sys.controller (s : Sys) : Sys :=
  match s.ctl_pc with
  | CtlPc.policy =>
    { s with
        suspend_flag :=
          (console_print_policy s.suspend_flag s.shared.sample_count s.shared.sample_count).2,
        ctl_pc := CtlPc.take }
  | CtlPc.take =>
    match xSemaphoreTake s.data_mutex Holder.controller with
    | some m => { s with data_mutex := m, ctl_pc := CtlPc.log_count }
    | none => s
  | CtlPc.log_count => { s with seen_count := s.shared.sample_count, ctl_pc := CtlPc.log_temp }
  | CtlPc.log_temp => { s with seen_temp := s.shared.temp_avg, ctl_pc := CtlPc.log_humi }
  | CtlPc.log_humi =>
    { s with
        reports := s.reports ++
          [{ temp_avg := s.seen_temp, humi_avg := s.shared.humi_avg,
             sample_count := s.seen_count }],
        ctl_pc := CtlPc.give }
  | CtlPc.give => { s with data_mutex := xSemaphoreGive s.data_mutex, ctl_pc := CtlPc.delay }
  | CtlPc.delay => { s with ctl_pc := CtlPc.policy }

/-- What happens next: a reading is offered to the queue, or one of the two
tasks runs its next statement. -/
inductive Move where
  | enqueue (d : sensor_data_t)
  | aggregator
  | controller

/-- One move of the interleaving. -/
def Sys.step (s : Sys) : Move → Sys
  | Move.enqueue d => { s with sensor_queue := (xQueueSend SENSOR_QUEUE_LENGTH s.sensor_queue d).1 }
  | Move.aggregator => s.aggregator
  | Move.controller => s.controller

/-- An interleaving run from `s`. -/
def Sys.run (s : Sys) (moves : List Move) : Sys :=
  moves.foldl Sys.step s

/-- Whether the aggregator holds a dequeued reading whose update is not yet
complete. -/
def AggPc.pending : AggPc → Bool
  | AggPc.take => true
  | AggPc.set_temp => true
  | AggPc.set_humi => true
  | AggPc.incr => true
  | _ => false

/-- The shared statics at each program point of the aggregator, given the
state `base` after the completed updates and the reading being applied. -/
def AggPc.sharedAt (pc : AggPc) (base : Shared) (d : sensor_data_t) : Shared :=
  match pc with
  | AggPc.set_humi => { base with temp_avg := (data_process_update base d).temp_avg }
  | AggPc.incr => { data_process_update base d with sample_count := base.sample_count }
  | _ => base

/-- Invariant of the interleaving: `done` lists the readings whose update is
complete. -/
def Sys.Inv (s : Sys) (done : List sensor_data_t) : Prop :=
  s.received = done ++ (if s.agg_pc.pending then [s.recv_data] else []) ∧
  s.shared = s.agg_pc.sharedAt (data_process_run Shared.init done) s.recv_data ∧
  (s.data_mutex = some Holder.aggregator ↔
    s.agg_pc = AggPc.set_temp ∨ s.agg_pc = AggPc.set_humi ∨ s.agg_pc = AggPc.incr ∨
      s.agg_pc = AggPc.give) ∧
  (s.data_mutex = some Holder.controller ↔
    s.ctl_pc = CtlPc.log_count ∨ s.ctl_pc = CtlPc.log_temp ∨ s.ctl_pc = CtlPc.log_humi ∨
      s.ctl_pc = CtlPc.give) ∧
  (s.ctl_pc = CtlPc.log_temp ∨ s.ctl_pc = CtlPc.log_humi → s.seen_count = s.shared.sample_count) ∧
  (s.ctl_pc = CtlPc.log_humi → s.seen_temp = s.shared.temp_avg) ∧
  ∀ r ∈ s.reports, ∃ k, k ≤ done.length ∧ r = data_process_run Shared.init (done.take k)

/-- The schedule in which the aggregator consumes each reading before the
next one is produced, for `n` readings with `rand()` results `r1`, `r2`. -/
def lockstep (r1 r2 : Nat) : Nat → List Sched
  | 0 => []
  | n + 1 => Sched.collect r1 r2 :: Sched.process :: lockstep r1 r2 n

/-! ## The three tasks statement by statement, with suspension -/

/-- The statement-level state of aggregator and controller together with
what the controller's task control calls do: whether the task behind
`collect_task_handle` is suspended, and the calls issued so far, oldest
first. -/
structure Tasks where
  sys : Sys
  collect_suspended : Bool
  calls : List CtlAction

/-- Everything at its start, producer running, no call issued. -/
def Tasks.init : Tasks :=
  { sys := Sys.init, collect_suspended := false, calls := [] }

/-- One move. An `enqueue` is the producer's `xQueueSend` at line 33 and does
not happen while the producer is suspended. A controller move at lines 82-90
also performs the call the policy issues: `vTaskSuspend` suspends the
producer, `vTaskResume` resumes it. -/
def Tasks.step (t : Tasks) : Move → Tasks
  | Move.enqueue d =>
    if t.collect_suspended then t else { t with sys := t.sys.step (Move.enqueue d) }
  | Move.aggregator => { t with sys := t.sys.aggregator }
  | Move.controller =>
    match t.sys.ctl_pc with
    | CtlPc.policy =>
      match (console_print_policy t.sys.suspend_flag t.sys.shared.sample_count
          t.sys.shared.sample_count).1 with
      | CtlAction.vTaskSuspend =>
        { sys := t.sys.controller, collect_suspended := true,
          calls := t.calls ++ [CtlAction.vTaskSuspend] }
      | CtlAction.vTaskResume =>
        { sys := t.sys.controller, collect_suspended := false,
          calls := t.calls ++ [CtlAction.vTaskResume] }
      | CtlAction.none => { t with sys := t.sys.controller }
    | _ => { t with sys := t.sys.controller }

/-- A sequence of moves run from `t`. -/
def Tasks.run (t : Tasks) (moves : List Move) : Tasks :=
  moves.foldl Tasks.step t

/-- Number of readings the aggregator has dequeued but not yet counted in
`sample_count`: one between line 56 and line 63, else none. -/
def Sys.inFlight (s : Sys) : Nat :=
  if s.agg_pc.pending then 1 else 0

/-- The moves in which the producer sends `n` readings `d` and the aggregator
runs a whole loop iteration after each. -/
def lockstepMoves (d : sensor_data_t) : Nat → List Move
  | 0 => []
  | n + 1 => Move.enqueue d :: (List.replicate 8 Move.aggregator ++ lockstepMoves d n)

/-! ## Aggregator lemmas -/

theorem data_process_run_nil (s : Shared) : data_process_run s [] = s := rfl

theorem data_process_run_cons (s : Shared) (d : sensor_data_t) (l : List sensor_data_t) :
    data_process_run s (d :: l) = data_process_run (data_process_update s d) l := rfl

theorem data_process_run_append (s : Shared) (l₁ l₂ : List sensor_data_t) :
    data_process_run s (l₁ ++ l₂) = data_process_run (data_process_run s l₁) l₂ := by
  simp [data_process_run, List.foldl_append]

/-- Invariant carried by the fold: count times average is the running sum. -/
theorem data_process_run_sums (l : List sensor_data_t) (s : Shared)
    (hn : 0 ≤ s.sample_count) :
    (data_process_run s l).sample_count = s.sample_count + l.length ∧
    (data_process_run s l).temp_avg * (data_process_run s l).sample_count
      = s.temp_avg * s.sample_count + tempSum l ∧
    (data_process_run s l).humi_avg * (data_process_run s l).sample_count
      = s.humi_avg * s.sample_count + humiSum l := by
  induction l generalizing s with
  | nil => simp [data_process_run, tempSum, humiSum]
  | cons d l ih =>
    have hpos : (0 : ℚ) < (s.sample_count : ℚ) + 1 := by
      have : (0 : ℚ) ≤ (s.sample_count : ℚ) := by exact_mod_cast hn
      linarith
    have hne : (s.sample_count : ℚ) + 1 ≠ 0 := ne_of_gt hpos
    have hn1 : 0 ≤ (data_process_update s d).sample_count := by
      simp only [data_process_update]; omega
    obtain ⟨h1, h2, h3⟩ := ih (data_process_update s d) hn1
    rw [data_process_run_cons]
    refine ⟨?_, ?_, ?_⟩
    · rw [h1]; simp only [data_process_update, List.length_cons]; push_cast; ring
    · rw [h2]; simp only [data_process_update, tempSum, List.map_cons, List.sum_cons]
      push_cast
      rw [div_mul_cancel₀ _ hne]; ring
    · rw [h3]; simp only [data_process_update, humiSum, List.map_cons, List.sum_cons]
      push_cast
      rw [div_mul_cancel₀ _ hne]; ring

/-- The aggregator state after any list of readings depends only on the
number of readings and the two sums. -/
theorem data_process_run_init_eq (l₁ l₂ : List sensor_data_t)
    (hlen : l₁.length = l₂.length) (ht : tempSum l₁ = tempSum l₂)
    (hh : humiSum l₁ = humiSum l₂) :
    data_process_run Shared.init l₁ = data_process_run Shared.init l₂ := by
  by_cases h1 : l₁ = []
  · have h2 : l₂ = [] := by
      apply List.eq_nil_of_length_eq_zero
      rw [← hlen, h1]; rfl
    rw [h1, h2]
  · have hpos : (l₁.length : ℚ) ≠ 0 := by
      have : l₁.length ≠ 0 := by simpa [List.length_eq_zero] using h1
      exact_mod_cast this
    obtain ⟨a1, a2, a3⟩ := data_process_run_sums l₁ Shared.init (by simp [Shared.init])
    obtain ⟨b1, b2, b3⟩ := data_process_run_sums l₂ Shared.init (by simp [Shared.init])
    simp only [Shared.init, zero_add, Int.cast_zero, mul_zero] at a1 a2 a3 b1 b2 b3
    rw [a1] at a2 a3
    rw [b1, ← hlen, ← ht] at b2
    rw [b1, ← hlen, ← hh] at b3
    rw [← hlen] at b1
    push_cast at a2 a3 b2 b3
    have e2 : (data_process_run Shared.init l₁).temp_avg
        = (data_process_run Shared.init l₂).temp_avg :=
      mul_right_cancel₀ hpos (a2.trans b2.symm)
    have e3 : (data_process_run Shared.init l₁).humi_avg
        = (data_process_run Shared.init l₂).humi_avg :=
      mul_right_cancel₀ hpos (a3.trans b3.symm)
    have e1 : (data_process_run Shared.init l₁).sample_count
        = (data_process_run Shared.init l₂).sample_count := a1.trans b1.symm
    cases hx : data_process_run Shared.init l₁
    cases hy : data_process_run Shared.init l₂
    rw [hx, hy] at e1 e2 e3
    simp only at e1 e2 e3
    rw [e1, e2, e3]

/-! ## Controller lemmas -/

theorem console_print_flag_succ (obs : Nat → Int × Int) (n : Nat) :
    console_print_flag obs (n + 1)
      = (console_print_policy (console_print_flag obs n) (obs n).1 (obs n).2).2 := rfl

/-- Two cycles that are both the first to read a count above 20 coincide. -/
theorem first_over_unique (obs : Nat → Int × Int) (s t : Nat)
    (hs : 20 < (obs s).1 ∧ ∀ j < s, (obs j).1 ≤ 20)
    (ht : 20 < (obs t).1 ∧ ∀ j < t, (obs j).1 ≤ 20) : s = t := by
  rcases Nat.lt_trichotomy s t with h | h | h
  · have := ht.2 s h; omega
  · exact h
  · have := hs.2 t h; omega

/-- What the flag at the start of cycle `n` says about the counts read on the
cycles before `n`. -/
theorem console_print_flag_cases (obs : Nat → Int × Int) (n : Nat) :
    (console_print_flag obs n = 0 ∧ ∀ j < n, (obs j).1 ≤ 20) ∨
    (console_print_flag obs n = 1 ∧ ∃ s < n, (20 < (obs s).1 ∧ ∀ j < s, (obs j).1 ≤ 20) ∧
        ∀ j, s < j → j < n → (obs j).2 ≤ 30) ∨
    (console_print_flag obs n = 2 ∧ ∃ s, (20 < (obs s).1 ∧ ∀ j < s, (obs j).1 ≤ 20) ∧
        ∃ i, s < i ∧ i < n ∧ 30 < (obs i).2 ∧ ∀ j, s < j → j < i → (obs j).2 ≤ 30) := by
  induction n with
  | zero => left; exact ⟨rfl, fun j hj => absurd hj (Nat.not_lt_zero j)⟩
  | succ n ih =>
    rw [console_print_flag_succ]
    rcases ih with ⟨hf, h0⟩ | ⟨hf, s, hs, hfirst, hbetween⟩ | ⟨hf, s, hfirst, i, hsi, hin, hi, hbetween⟩
    · by_cases hc : 20 < (obs n).1
      · right; left
        refine ⟨by simp [console_print_policy, hf, hc], n, Nat.lt_succ_self n, ⟨hc, h0⟩, ?_⟩
        intro j h1 h2; omega
      · left
        refine ⟨by simp [console_print_policy, hf, hc], ?_⟩
        intro j hj
        rcases Nat.lt_succ_iff_lt_or_eq.mp hj with h | h
        · exact h0 j h
        · subst h; omega
    · by_cases hc : 30 < (obs n).2
      · right; right
        refine ⟨by simp [console_print_policy, hf, hc], s, hfirst, n, hs, Nat.lt_succ_self n, hc,
          hbetween⟩
      · right; left
        refine ⟨by simp [console_print_policy, hf, hc], s, Nat.lt_succ_of_lt hs, hfirst, ?_⟩
        intro j h1 h2
        rcases Nat.lt_succ_iff_lt_or_eq.mp h2 with h | h
        · exact hbetween j h1 h
        · subst h; omega
    · right; right
      exact ⟨by simp [console_print_policy, hf], s, hfirst, i, hsi, Nat.lt_succ_of_lt hin, hi,
        hbetween⟩

/-- The call issued on cycle `n`, read off the counts of cycles `0..n`. -/
theorem console_print_action_iff (obs : Nat → Int × Int) (n : Nat) :
    (console_print_action obs n = CtlAction.vTaskSuspend ↔
      20 < (obs n).1 ∧ ∀ j < n, (obs j).1 ≤ 20) ∧
    (console_print_action obs n = CtlAction.vTaskResume ↔
      ∃ s < n, (20 < (obs s).1 ∧ ∀ j < s, (obs j).1 ≤ 20) ∧
        30 < (obs n).2 ∧ ∀ j, s < j → j < n → (obs j).2 ≤ 30) := by
  unfold console_print_action
  rcases console_print_flag_cases obs n with
    ⟨hf, h0⟩ | ⟨hf, s, hs, hfirst, hbetween⟩ | ⟨hf, s, hfirst, i, hsi, hin, hi, hbetween⟩
  · constructor
    · by_cases hc : 20 < (obs n).1
      · simp [console_print_policy, hf, hc]; exact h0
      · simp [console_print_policy, hf, hc]
    · constructor
      · by_cases hc : 20 < (obs n).1 <;> simp [console_print_policy, hf, hc]
      · rintro ⟨t, ht, ⟨h1, _⟩, _⟩
        have := h0 t ht; omega
  · constructor
    · constructor
      · by_cases hc : 30 < (obs n).2 <;> simp [console_print_policy, hf, hc]
      · rintro ⟨_, h2⟩
        have := h2 s hs; omega
    · constructor
      · by_cases hc : 30 < (obs n).2
        · intro _; exact ⟨s, hs, hfirst, hc, hbetween⟩
        · simp [console_print_policy, hf, hc]
      · rintro ⟨t, _, _, h30, _⟩
        simp [console_print_policy, hf, h30]
  · constructor
    · constructor
      · simp [console_print_policy, hf]
      · rintro ⟨_, h2⟩
        have := h2 s (by omega); omega
    · constructor
      · simp [console_print_policy, hf]
      · rintro ⟨t, ht, htfirst, _, htb⟩
        have hst : s = t := first_over_unique obs s t hfirst htfirst
        subst hst
        have := htb i hsi hin; omega

/-! ## Pipeline lemmas -/

theorem Pipeline.run_step_cons (p : Pipeline) (e : Sched) (es : List Sched) :
    p.run (e :: es) = (p.step e).run es := rfl

/-- The producer never writes the shared statics. -/
theorem sensor_collect_cycle_shared (r1 r2 : Nat) (p : Pipeline) :
    (sensor_collect_cycle r1 r2 p).1.shared = p.shared := by
  simp only [sensor_collect_cycle]
  split_ifs <;> rfl

/-- One scheduling step raises `sample_count` by one when the aggregator
consumes a reading and leaves it alone otherwise. -/
theorem Pipeline.step_sample_count (p : Pipeline) (e : Sched) :
    (p.step e).shared.sample_count
      = p.shared.sample_count + (if e = Sched.process ∧ p.sensor_queue ≠ [] then 1 else 0) := by
  cases e with
  | collect r1 r2 =>
    have hne : ¬ (Sched.collect r1 r2 = Sched.process ∧ p.sensor_queue ≠ []) := by simp
    rw [if_neg hne]
    simp only [Pipeline.step]
    split_ifs
    · simp
    · simp [sensor_collect_cycle_shared]
  | process =>
    simp only [Pipeline.step, data_process_cycle]
    cases hq : p.sensor_queue with
    | nil => simp [xQueueReceive]
    | cons d rest => simp [xQueueReceive, data_process_update]
  | print => simp [Pipeline.step, console_print_cycle]

theorem Pipeline.run_sample_count (sched : List Sched) (p : Pipeline) :
    (p.run sched).shared.sample_count = p.shared.sample_count + updatesDuring p sched := by
  induction sched generalizing p with
  | nil => simp [Pipeline.run, updatesDuring]
  | cons e es ih =>
    rw [Pipeline.run_step_cons, ih, Pipeline.step_sample_count, updatesDuring]
    split_ifs <;> push_cast <;> ring

/-- While the queue has room for all of them, consecutive producer cycles
append their readings in order and log each one as sent. -/
theorem sensor_collect_run_room (rs : List (Nat × Nat)) (p : Pipeline)
    (h : p.sensor_queue.length + rs.length ≤ SENSOR_QUEUE_LENGTH) :
    (sensor_collect_run rs p).1
      = { p with sensor_queue :=
            p.sensor_queue ++ rs.map fun r => synthesize r.1 r.2 p.shared.sample_count } ∧
    (sensor_collect_run rs p).2
      = rs.map fun r => CollectLog.sent (synthesize r.1 r.2 p.shared.sample_count) := by
  induction rs generalizing p with
  | nil => simp [sensor_collect_run]
  | cons r rs ih =>
    have hlt : p.sensor_queue.length < SENSOR_QUEUE_LENGTH := by
      simp only [List.length_cons] at h; omega
    have hc : sensor_collect_cycle r.1 r.2 p
        = ({ p with sensor_queue := p.sensor_queue ++ [synthesize r.1 r.2 p.shared.sample_count] },
            CollectLog.sent (synthesize r.1 r.2 p.shared.sample_count)) := by
      simp [sensor_collect_cycle, sensor_collect_data, xQueueSend, hlt]
    have h2 : (p.sensor_queue ++ [synthesize r.1 r.2 p.shared.sample_count]).length + rs.length
        ≤ SENSOR_QUEUE_LENGTH := by
      simp only [List.length_append, List.length_cons, List.length_nil] at h ⊢; omega
    obtain ⟨ih1, ih2⟩ := ih
      { p with sensor_queue := p.sensor_queue ++ [synthesize r.1 r.2 p.shared.sample_count] } h2
    simp only [sensor_collect_run, hc]
    exact ⟨by rw [ih1]; simp, by rw [ih2]; simp⟩

/-- A producer cycle that finds the queue full changes nothing and logs the
failure. -/
theorem sensor_collect_cycle_full (r1 r2 : Nat) (p : Pipeline)
    (h : SENSOR_QUEUE_LENGTH ≤ p.sensor_queue.length) :
    sensor_collect_cycle r1 r2 p = (p, CollectLog.queue_full) := by
  have : ¬ p.sensor_queue.length < SENSOR_QUEUE_LENGTH := by omega
  simp [sensor_collect_cycle, xQueueSend, this]

theorem sensor_collect_run_append (rs ts : List (Nat × Nat)) (p : Pipeline) :
    sensor_collect_run (rs ++ ts) p
      = ((sensor_collect_run ts (sensor_collect_run rs p).1).1,
          (sensor_collect_run rs p).2 ++ (sensor_collect_run ts (sensor_collect_run rs p).1).2) := by
  induction rs generalizing p with
  | nil => simp [sensor_collect_run]
  | cons r rs ih => simp [sensor_collect_run, ih]

/-! ## Interleaving lemmas -/

/-- Every move preserves the invariant, for a possibly longer list of
completed readings. -/
theorem Sys.Inv_step (s : Sys) (done : List sensor_data_t) (h : s.Inv done) (m : Move) :
    ∃ done', (s.step m).Inv done' := by
  obtain ⟨hrec, hsh, hagg, hctl, hcnt, htmp, hrep⟩ := h
  cases m with
  | enqueue d => exact ⟨done, hrec, hsh, hagg, hctl, hcnt, htmp, hrep⟩
  | aggregator =>
    simp only [Sys.step, Sys.aggregator]
    cases hpc : s.agg_pc with
    | receive =>
      cases hq : s.sensor_queue with
      | nil =>
        refine ⟨done, ?_⟩
        simp only [xQueueReceive, Sys.Inv, hpc] at *
        exact ⟨hrec, hsh, hagg, hctl, hcnt, htmp, hrep⟩
      | cons d rest =>
        refine ⟨done, ?_⟩
        simp only [xQueueReceive, Sys.Inv, hpc] at *
        simp_all [AggPc.pending, AggPc.sharedAt]
    | take =>
      cases hm : s.data_mutex with
      | none =>
        refine ⟨done, ?_⟩
        simp only [Sys.Inv, hpc, hm, xSemaphoreTake] at *
        simp_all [AggPc.pending, AggPc.sharedAt]
      | some t =>
        refine ⟨done, ?_⟩
        simp only [Sys.Inv, hpc, hm, xSemaphoreTake] at *
        simp_all [AggPc.pending, AggPc.sharedAt]
    | set_temp =>
      refine ⟨done, ?_⟩
      simp only [Sys.Inv, hpc] at *
      simp_all [AggPc.pending, AggPc.sharedAt, data_process_update]
    | set_humi =>
      refine ⟨done, ?_⟩
      simp only [Sys.Inv, hpc] at *
      simp_all [AggPc.pending, AggPc.sharedAt, data_process_update]
    | incr =>
      refine ⟨done ++ [s.recv_data], ?_⟩
      simp only [Sys.Inv, hpc] at *
      simp_all [AggPc.pending, AggPc.sharedAt, data_process_update, data_process_run_append]
      refine ⟨rfl, ?_⟩
      intro r hr
      obtain ⟨k, hk, e⟩ := hrep r hr
      exact ⟨k, by omega, by rw [List.take_append_of_le_length hk]; exact e⟩
    | give =>
      refine ⟨done, ?_⟩
      simp only [Sys.Inv, hpc, xSemaphoreGive] at *
      simp_all [AggPc.pending, AggPc.sharedAt]
    | log =>
      refine ⟨done, ?_⟩
      simp only [Sys.Inv, hpc] at *
      simp_all [AggPc.pending, AggPc.sharedAt]
    | delay =>
      refine ⟨done, ?_⟩
      simp only [Sys.Inv, hpc] at *
      simp_all [AggPc.pending, AggPc.sharedAt]
  | controller =>
    simp only [Sys.step, Sys.controller]
    cases hpc : s.ctl_pc with
    | policy =>
      refine ⟨done, ?_⟩
      simp only [Sys.Inv, hpc] at *
      simp_all
    | take =>
      cases hm : s.data_mutex with
      | none =>
        refine ⟨done, ?_⟩
        simp only [Sys.Inv, hpc, hm, xSemaphoreTake] at *
        simp_all
      | some t =>
        refine ⟨done, ?_⟩
        simp only [Sys.Inv, hpc, hm, xSemaphoreTake] at *
        simp_all
    | log_count =>
      refine ⟨done, ?_⟩
      simp only [Sys.Inv, hpc] at *
      simp_all
    | log_temp =>
      refine ⟨done, ?_⟩
      simp only [Sys.Inv, hpc] at *
      simp_all
    | log_humi =>
      refine ⟨done, ?_⟩
      simp only [Sys.Inv, hpc] at *
      simp_all
      intro r hr
      rcases hr with hr | hr
      · exact hrep r hr
      · refine ⟨done.length, le_refl _, ?_⟩
        have hb : s.agg_pc.sharedAt (data_process_run Shared.init done) s.recv_data
            = data_process_run Shared.init done := by
          cases hp : s.agg_pc <;> simp_all [AggPc.sharedAt]
        rw [hb] at hr
        rw [hr, List.take_length]
    | give =>
      refine ⟨done, ?_⟩
      simp only [Sys.Inv, hpc, xSemaphoreGive] at *
      simp_all
    | delay =>
      refine ⟨done, ?_⟩
      simp only [Sys.Inv, hpc] at *
      simp_all


/-- The invariant holds at the start with no completed reading. -/
theorem Sys.Inv_init : Sys.init.Inv [] := by
  simp [Sys.Inv, Sys.init, AggPc.pending, AggPc.sharedAt, data_process_run]

theorem Sys.run_move_cons (s : Sys) (m : Move) (ms : List Move) :
    s.run (m :: ms) = (s.step m).run ms := rfl

/-- The invariant holds all along every interleaving. -/
theorem Sys.Inv_run (moves : List Move) (s : Sys) (done : List sensor_data_t)
    (h : s.Inv done) : ∃ done', (s.run moves).Inv done' := by
  induction moves generalizing s done with
  | nil => exact ⟨done, h⟩
  | cons m ms ih =>
    obtain ⟨d1, h1⟩ := Sys.Inv_step s done h m
    rw [Sys.run_move_cons]
    exact ih (s.step m) d1 h1


/-! ## Trace lemmas -/

theorem lockWalk_append (xs ys : List Event) (held : Bool) :
    lockWalk held (xs ++ ys) = (lockWalk held xs).bind fun h => lockWalk h ys := by
  induction xs generalizing held with
  | nil => simp [lockWalk]
  | cons e es ih =>
    simp only [List.cons_append, lockWalk]
    split_ifs
    · rfl
    · cases e <;> simp [ih]

/-- A loop whose body never blocks with the lock held and always ends with
the lock released does so over any number of iterations. -/
theorem lockWalk_loop {α : Type} (body : α → List Event)
    (h : ∀ a, lockWalk false (body a) = some false) (inputs : List α) :
    lockWalk false (loop_events body inputs) = some false := by
  induction inputs with
  | nil => rfl
  | cons a rest ih => simp [loop_events, lockWalk_append, h a, ih]

theorem sensor_collect_events_walk (sent stack_low debug_log : Bool) :
    lockWalk false (sensor_collect_events sent stack_low debug_log) = some false := by
  cases sent <;> cases stack_low <;> cases debug_log <;> decide

theorem data_process_events_walk (received debug_log : Bool) :
    lockWalk false (data_process_events received debug_log) = some false := by
  cases received <;> cases debug_log <;> decide

theorem console_print_events_walk (suspend_flag c1 c2 : Int) :
    lockWalk false (console_print_events suspend_flag c1 c2) = some false := by
  unfold console_print_events
  split_ifs <;> decide

theorem take_not_mem_loop {α : Type} (body : α → List Event)
    (h : ∀ a, Event.xSemaphoreTake ∉ body a) (inputs : List α) :
    Event.xSemaphoreTake ∉ loop_events body inputs := by
  induction inputs with
  | nil => simp [loop_events]
  | cons a rest ih => simp [loop_events, h a, ih]

theorem sensor_collect_events_no_take (sent stack_low debug_log : Bool) :
    Event.xSemaphoreTake ∉ sensor_collect_events sent stack_low debug_log := by
  cases sent <;> cases stack_low <;> cases debug_log <;> decide

/-! ## Claims -/

/-- C1: from the initial state, feeding any non-empty list of `N` readings to
the update step of `data_process_task` ends with `sample_count = N` and with
`temp_avg` and `humi_avg` equal to the arithmetic means of the `N`
temperatures and humidities (exact rational arithmetic). -/
theorem aggregator_mean_correct (l : List sensor_data_t) (h : l ≠ []) :
    (data_process_run Shared.init l).sample_count = l.length ∧
    (data_process_run Shared.init l).temp_avg = tempSum l / l.length ∧
    (data_process_run Shared.init l).humi_avg = humiSum l / l.length := by
  obtain ⟨h1, h2, h3⟩ := data_process_run_sums l Shared.init (by simp [Shared.init])
  have hlen : (l.length : ℚ) ≠ 0 := by
    have : l.length ≠ 0 := by simpa [List.length_eq_zero] using h
    exact_mod_cast this
  simp only [Shared.init, zero_add, Int.cast_zero, mul_zero] at h1 h2 h3
  rw [h1] at h2 h3
  refine ⟨by simpa [Shared.init] using h1, ?_, ?_⟩
  · rw [eq_div_iff hlen, ← h2]; push_cast; rfl
  · rw [eq_div_iff hlen, ← h3]; push_cast; rfl

/-- C1 witness: readings (25,40), (26,41), (27,42) give `sample_count = 3`,
`temp_avg = 26`, `humi_avg = 41`. -/
theorem aggregator_mean_correct_witness :
    ([⟨25, 40, 1⟩, ⟨26, 41, 2⟩, ⟨27, 42, 3⟩] : List sensor_data_t) ≠ [] ∧
    (data_process_run Shared.init [⟨25, 40, 1⟩, ⟨26, 41, 2⟩, ⟨27, 42, 3⟩]).sample_count = 3 ∧
    (data_process_run Shared.init [⟨25, 40, 1⟩, ⟨26, 41, 2⟩, ⟨27, 42, 3⟩]).temp_avg = 26 ∧
    (data_process_run Shared.init [⟨25, 40, 1⟩, ⟨26, 41, 2⟩, ⟨27, 42, 3⟩]).humi_avg = 41 := by
  have h := aggregator_mean_correct [⟨25, 40, 1⟩, ⟨26, 41, 2⟩, ⟨27, 42, 3⟩] (by simp)
  refine ⟨by simp, ?_, ?_, ?_⟩
  · rw [h.1]; rfl
  · rw [h.2.1]; norm_num [tempSum]
  · rw [h.2.2]; norm_num [humiSum]

/-- C2: with `suspend_flag = 0` at the start, for every sequence of counts
read on successive cycles of `console_print_task` (`(obs i).1` at line 82 and
`(obs i).2` at line 86 of cycle `i`), `vTaskSuspend` is issued exactly on the
first cycle that reads a count above 20 and the flag moves from 0 to 1,
`vTaskResume` is issued exactly on the first later cycle that reads a count
above 30 and the flag moves from 1 to 2, no other cycle issues either call,
so there is at most one suspend, at most one resume, and no resume before the
suspend. -/
theorem suspend_resume_one_shot (obs : Nat → Int × Int) (n : Nat) :
    (console_print_action obs n = CtlAction.vTaskSuspend ↔
      20 < (obs n).1 ∧ ∀ j < n, (obs j).1 ≤ 20) ∧
    (console_print_action obs n = CtlAction.vTaskResume ↔
      ∃ s < n, console_print_action obs s = CtlAction.vTaskSuspend ∧
        30 < (obs n).2 ∧ ∀ j, s < j → j < n → (obs j).2 ≤ 30) ∧
    (console_print_action obs n = CtlAction.vTaskSuspend →
      console_print_flag obs n = 0 ∧ console_print_flag obs (n + 1) = 1) ∧
    (console_print_action obs n = CtlAction.vTaskResume →
      console_print_flag obs n = 1 ∧ console_print_flag obs (n + 1) = 2) ∧
    (∀ m, console_print_action obs n = CtlAction.vTaskSuspend →
      console_print_action obs m = CtlAction.vTaskSuspend → m = n) ∧
    (∀ m, console_print_action obs n = CtlAction.vTaskResume →
      console_print_action obs m = CtlAction.vTaskResume → m = n) := by
  have hres : ∀ k, console_print_action obs k = CtlAction.vTaskResume ↔
      ∃ s < k, console_print_action obs s = CtlAction.vTaskSuspend ∧
        30 < (obs k).2 ∧ ∀ j, s < j → j < k → (obs j).2 ≤ 30 := by
    intro k
    rw [(console_print_action_iff obs k).2]
    constructor
    · rintro ⟨s, hs, hfirst, h⟩
      exact ⟨s, hs, (console_print_action_iff obs s).1.mpr hfirst, h⟩
    · rintro ⟨s, hs, hsus, h⟩
      exact ⟨s, hs, (console_print_action_iff obs s).1.mp hsus, h⟩
  refine ⟨(console_print_action_iff obs n).1, hres n, ?_, ?_, ?_, ?_⟩
  · intro h
    rw [console_print_flag_succ]
    unfold console_print_action console_print_policy at h
    unfold console_print_policy
    split_ifs at h ⊢ with h1
    exact ⟨h1.2, rfl⟩
  · intro h
    rw [console_print_flag_succ]
    unfold console_print_action console_print_policy at h
    unfold console_print_policy
    split_ifs at h ⊢ with h1 h2
    exact ⟨h2.1, rfl⟩
  · intro m hn hm
    exact first_over_unique obs m n ((console_print_action_iff obs m).1.mp hm)
      ((console_print_action_iff obs n).1.mp hn)
  · intro m hn hm
    obtain ⟨s, hs, hsus, h30, hb⟩ := (hres n).mp hn
    obtain ⟨t, ht, htus, h30t, hbt⟩ := (hres m).mp hm
    have hst : s = t := first_over_unique obs s t
      ((console_print_action_iff obs s).1.mp hsus) ((console_print_action_iff obs t).1.mp htus)
    subst hst
    rcases Nat.lt_trichotomy m n with h | h | h
    · have := hb m ht h; omega
    · exact h
    · have := hbt n hs h; omega

/-- C2 witness: when cycle `i` reads the count `3 * i`, the suspend call is
issued on cycle 7 (count 21) and the resume call on cycle 11 (count 33). -/
theorem suspend_resume_one_shot_witness :
    console_print_action (fun i => ((3 * i : Int), (3 * i : Int))) 7 = CtlAction.vTaskSuspend ∧
    console_print_action (fun i => ((3 * i : Int), (3 * i : Int))) 11 = CtlAction.vTaskResume ∧
    console_print_flag (fun i => ((3 * i : Int), (3 * i : Int))) 12 = 2 := by
  have h7 := suspend_resume_one_shot (fun i => ((3 * i : Int), (3 * i : Int))) 7
  have h11 := suspend_resume_one_shot (fun i => ((3 * i : Int), (3 * i : Int))) 11
  have hs : console_print_action (fun i => ((3 * i : Int), (3 * i : Int))) 7
      = CtlAction.vTaskSuspend := by
    refine h7.1.mpr ⟨by norm_num, ?_⟩
    intro j hj
    have : (j : Int) < 7 := by exact_mod_cast hj
    simp only; omega
  have hr : console_print_action (fun i => ((3 * i : Int), (3 * i : Int))) 11
      = CtlAction.vTaskResume := by
    refine h11.2.1.mpr ⟨7, by norm_num, hs, by norm_num, ?_⟩
    intro j h1 h2
    have : (j : Int) < 11 := by exact_mod_cast h2
    simp only; omega
  exact ⟨hs, hr, (h11.2.2.2.1 hr).2⟩

/-- C3 (refuted as stated): two consecutive producer cycles from the initial
state, with the aggregator not running in between, both send a reading and
the later `sample_id` is not greater than the earlier one (both are 1). -/
theorem sample_id_repeats :
    (sensor_collect_run [(3, 7), (5, 9)] Pipeline.init).2
      = [CollectLog.sent (sensor_collect_data 3 7 Pipeline.init),
          CollectLog.sent (sensor_collect_data 5 9 (sensor_collect_cycle 3 7 Pipeline.init).1)] ∧
    (sensor_collect_data 3 7 Pipeline.init).sample_id = 1 ∧
    (sensor_collect_data 5 9 (sensor_collect_cycle 3 7 Pipeline.init).1).sample_id = 1 ∧
    ¬ (sensor_collect_data 3 7 Pipeline.init).sample_id
        < (sensor_collect_data 5 9 (sensor_collect_cycle 3 7 Pipeline.init).1).sample_id := by
  have h1 : (sensor_collect_data 3 7 Pipeline.init).sample_id = 1 := by
    simp [sensor_collect_data, synthesize, Pipeline.init, Shared.init]
  have h2 : (sensor_collect_data 5 9 (sensor_collect_cycle 3 7 Pipeline.init).1).sample_id = 1 := by
    simp [sensor_collect_data, synthesize, sensor_collect_cycle_shared, Pipeline.init, Shared.init]
  refine ⟨?_, h1, h2, by rw [h1, h2]; decide⟩
  simp [sensor_collect_run, sensor_collect_cycle, sensor_collect_data, xQueueSend,
    SENSOR_QUEUE_LENGTH, Pipeline.init]

/-- C3 (amended): the `sample_id` of a reading is the shared `sample_count`
read by the producer plus one; between a producer cycle and a later one the
id grows by exactly the number of readings the aggregator consumed in
between, so it never decreases and is strictly greater exactly when the
aggregator consumed at least one reading. -/
theorem sample_id_tracks_sample_count (p : Pipeline) (r1 r2 r3 r4 : Nat) (mid : List Sched) :
    (sensor_collect_data r1 r2 p).sample_id = p.shared.sample_count + 1 ∧
    (sensor_collect_data r3 r4 ((sensor_collect_cycle r1 r2 p).1.run mid)).sample_id
      = (sensor_collect_data r1 r2 p).sample_id
          + updatesDuring (sensor_collect_cycle r1 r2 p).1 mid ∧
    (sensor_collect_data r1 r2 p).sample_id
      ≤ (sensor_collect_data r3 r4 ((sensor_collect_cycle r1 r2 p).1.run mid)).sample_id ∧
    ((sensor_collect_data r1 r2 p).sample_id
        < (sensor_collect_data r3 r4 ((sensor_collect_cycle r1 r2 p).1.run mid)).sample_id ↔
      0 < updatesDuring (sensor_collect_cycle r1 r2 p).1 mid) := by
  have h := Pipeline.run_sample_count mid (sensor_collect_cycle r1 r2 p).1
  rw [sensor_collect_cycle_shared] at h
  simp only [sensor_collect_data, synthesize, h]
  refine ⟨trivial, by ring, by omega, by omega⟩

/-- C5 (refuted as stated): when the queue, the mutex and the collect task
are created and the process task creation fails, `test_multi_task` returns
with the collect task created, so neither all three tasks nor none exist. -/
theorem startup_leaves_collect_task :
    tasksCreated true true true false true = [Created.CollectTask] ∧
    ¬ (tasksCreated true true true false true
          = [Created.CollectTask, Created.ProcessTask, Created.PrintTask] ∨
        tasksCreated true true true false true = []) := by
  decide

/-- C5 (amended): `test_multi_task` makes its creation calls in order and
stops at the first failing one. Its calls are the successful creations, then
either the success line (all five succeeded) or the failing creation followed
by one error line about it; it makes no further creation call and no delete
call. The objects existing on return are exactly those created before the
first failure. So all three tasks exist exactly when all five calls succeed
(and only then is the success line logged); no task exists exactly when the
queue, the mutex or the collect task fails; a failing process task leaves the
collect task created, a failing print task leaves the collect and process
tasks created. -/
theorem startup_stops_at_first_failure (queue_ok mutex_ok collect_ok process_ok print_ok : Bool) :
    ((test_multi_task queue_ok mutex_ok collect_ok process_ok print_ok).2 = true ↔
      (queue_ok && mutex_ok && collect_ok && process_ok && print_ok) = true) ∧
    (tasksCreated queue_ok mutex_ok collect_ok process_ok print_ok
        = [Created.CollectTask, Created.ProcessTask, Created.PrintTask] ↔
      (queue_ok && mutex_ok && collect_ok && process_ok && print_ok) = true) ∧
    (tasksCreated queue_ok mutex_ok collect_ok process_ok print_ok = [] ↔
      (queue_ok && mutex_ok && collect_ok) = false) ∧
    (tasksCreated queue_ok mutex_ok collect_ok process_ok print_ok = [Created.CollectTask] ↔
      (queue_ok && mutex_ok && collect_ok && !process_ok) = true) ∧
    (tasksCreated queue_ok mutex_ok collect_ok process_ok print_ok
        = [Created.CollectTask, Created.ProcessTask] ↔
      (queue_ok && mutex_ok && collect_ok && process_ok && !print_ok) = true) ∧
    test_multi_task_calls queue_ok mutex_ok collect_ok process_ok print_ok
      = (setupOrder.take (leadingSuccesses queue_ok mutex_ok collect_ok process_ok print_ok)).map
          (fun obj => SetupCall.create obj true)
        ++ (if leadingSuccesses queue_ok mutex_ok collect_ok process_ok print_ok = 5 then
              [SetupCall.ESP_LOGI]
            else
              ((setupOrder.drop
                (leadingSuccesses queue_ok mutex_ok collect_ok process_ok print_ok)).take 1).flatMap
                fun obj => [SetupCall.create obj false, SetupCall.ESP_LOGE obj]) ∧
    (∀ obj, SetupCall.delete obj ∉
      test_multi_task_calls queue_ok mutex_ok collect_ok process_ok print_ok) ∧
    (test_multi_task queue_ok mutex_ok collect_ok process_ok print_ok).1
      = objectsAfter [] (test_multi_task_calls queue_ok mutex_ok collect_ok process_ok print_ok) ∧
    (test_multi_task queue_ok mutex_ok collect_ok process_ok print_ok).1
      = setupOrder.take (leadingSuccesses queue_ok mutex_ok collect_ok process_ok print_ok) ∧
    ((test_multi_task queue_ok mutex_ok collect_ok process_ok print_ok).2 = true ↔
      SetupCall.ESP_LOGI ∈
        test_multi_task_calls queue_ok mutex_ok collect_ok process_ok print_ok) := by
  cases queue_ok <;> cases mutex_ok <;> cases collect_ok <;> cases process_ok <;>
    cases print_ok <;>
    refine ⟨by decide, by decide, by decide, by decide, by decide, by decide, ?_, by decide,
      by decide, by decide⟩ <;>
    intro obj <;> cases obj <;> decide

/-- C6: from the initial pipeline (queue of capacity 10 empty, aggregator
never running), ten producer cycles are all logged as sent, the eleventh
takes the queue-full branch, the queue then holds exactly the first ten
readings in order, and `sample_count` is still 0. -/
theorem channel_full_drop (rs : List (Nat × Nat)) (r : Nat × Nat) (h : rs.length = 10) :
    (sensor_collect_run (rs ++ [r]) Pipeline.init).2
      = (rs.map fun x => CollectLog.sent (synthesize x.1 x.2 0)) ++ [CollectLog.queue_full] ∧
    (sensor_collect_run (rs ++ [r]) Pipeline.init).1.sensor_queue
      = (rs.map fun x => synthesize x.1 x.2 0) ∧
    (sensor_collect_run (rs ++ [r]) Pipeline.init).1.sensor_queue.length = 10 ∧
    (sensor_collect_run (rs ++ [r]) Pipeline.init).1.shared.sample_count = 0 := by
  obtain ⟨h1, h2⟩ := sensor_collect_run_room rs Pipeline.init
    (by simp [Pipeline.init, SENSOR_QUEUE_LENGTH, h])
  have hfull : SENSOR_QUEUE_LENGTH ≤ (sensor_collect_run rs Pipeline.init).1.sensor_queue.length := by
    rw [h1]; simp [Pipeline.init, SENSOR_QUEUE_LENGTH, h]
  have h3 := sensor_collect_cycle_full r.1 r.2 _ hfull
  rw [sensor_collect_run_append]
  simp only [sensor_collect_run, h3, h2]
  rw [h1]
  simp [Pipeline.init, Shared.init, h]

/-- C6 witness: ten cycles with `rand()` results (0, 0) and an eleventh with
(1, 1). -/
theorem channel_full_drop_witness :
    (List.replicate 10 ((0 : Nat), (0 : Nat))).length = 10 ∧
    (sensor_collect_run (List.replicate 10 (0, 0) ++ [(1, 1)]) Pipeline.init).2
      = List.replicate 10 (CollectLog.sent (synthesize 0 0 0)) ++ [CollectLog.queue_full] ∧
    (sensor_collect_run (List.replicate 10 (0, 0) ++ [(1, 1)]) Pipeline.init).1.sensor_queue
      = List.replicate 10 (synthesize 0 0 0) ∧
    (sensor_collect_run (List.replicate 10 (0, 0) ++ [(1, 1)])
      Pipeline.init).1.shared.sample_count = 0 := by
  have h := channel_full_drop (List.replicate 10 (0, 0)) (1, 1) (by simp)
  refine ⟨by simp, ?_, ?_, h.2.2.2⟩
  · rw [h.1]; simp
  · rw [h.2.1]; simp

/-- C7: for every list of readings and every permutation of it, the update
step of `data_process_task` folded over either from the initial state ends in
the same `temp_avg`, `humi_avg` and `sample_count`. -/
theorem running_mean_order_independent (l₁ l₂ : List sensor_data_t) (h : l₁.Perm l₂) :
    data_process_run Shared.init l₁ = data_process_run Shared.init l₂ :=
  data_process_run_init_eq l₁ l₂ h.length_eq
    (List.Perm.sum_eq (h.map fun d => d.temperature))
    (List.Perm.sum_eq (h.map fun d => d.humidity))

/-- C7 witness: the readings (25, 40) and (27, 44) in either order. -/
theorem running_mean_order_independent_witness :
    ([⟨25, 40, 1⟩, ⟨27, 44, 2⟩] : List sensor_data_t).Perm [⟨27, 44, 2⟩, ⟨25, 40, 1⟩] ∧
    data_process_run Shared.init [⟨25, 40, 1⟩, ⟨27, 44, 2⟩]
      = data_process_run Shared.init [⟨27, 44, 2⟩, ⟨25, 40, 1⟩] :=
  ⟨List.Perm.swap _ _ _, running_mean_order_independent _ _ (List.Perm.swap _ _ _)⟩

/-- C9: for all `rand()` results `r1`, `r2` the synthesized reading has
temperature `25 + (r1 mod 100)/10` within [25.0, 34.9] and humidity
`40 + (r2 mod 300)/10` within [40.0, 69.9]; the four bounds are reached at
`r1 = 0`, `r1 = 99`, `r2 = 0`, `r2 = 299`. -/
theorem reading_ranges (r1 r2 : Nat) (c : Int) :
    (synthesize r1 r2 c).temperature = 25 + ((r1 % 100 : Nat) : ℚ) / 10 ∧
    25 ≤ (synthesize r1 r2 c).temperature ∧ (synthesize r1 r2 c).temperature ≤ 349 / 10 ∧
    (synthesize r1 r2 c).humidity = 40 + ((r2 % 300 : Nat) : ℚ) / 10 ∧
    40 ≤ (synthesize r1 r2 c).humidity ∧ (synthesize r1 r2 c).humidity ≤ 699 / 10 ∧
    (synthesize 0 0 c).temperature = 25 ∧ (synthesize 99 299 c).temperature = 349 / 10 ∧
    (synthesize 0 0 c).humidity = 40 ∧ (synthesize 99 299 c).humidity = 699 / 10 := by
  have h1 : ((r1 % 100 : Nat) : ℚ) ≤ 99 := by
    have : r1 % 100 ≤ 99 := by omega
    exact_mod_cast this
  have h2 : ((r2 % 300 : Nat) : ℚ) ≤ 299 := by
    have : r2 % 300 ≤ 299 := by omega
    exact_mod_cast this
  have h3 : (0 : ℚ) ≤ ((r1 % 100 : Nat) : ℚ) := Nat.cast_nonneg _
  have h4 : (0 : ℚ) ≤ ((r2 % 300 : Nat) : ℚ) := Nat.cast_nonneg _
  refine ⟨rfl, ?_, ?_, rfl, ?_, ?_, ?_, ?_, ?_, ?_⟩ <;> simp only [synthesize] <;>
    linarith

/-- C4 (code defect evaluated): the claim that every access to `temp_avg`,
`humi_avg` or `sample_count` happens with `data_mutex` held fails on the
traces of the task bodies. Every iteration of `sensor_collect_task` reads
`sample_count` (line 30) without ever taking the lock, every iteration of
`console_print_task` reads it (line 82) before its take at line 93, and
`data_process_task` reads all three after its give when `ESP_LOGD` prints
(lines 68-69); only its update at lines 58-66 is covered. -/
theorem shared_access_outside_lock :
    (∀ sent stack_low debug_log : Bool,
      accessesLocked false (sensor_collect_events sent stack_low debug_log) = false) ∧
    (∀ suspend_flag c1 c2 : Int,
      accessesLocked false (console_print_events suspend_flag c1 c2) = false) ∧
    accessesLocked false (data_process_events true true) = false ∧
    accessesLocked false (data_process_events true false) = true := by
  refine ⟨?_, ?_, by decide, by decide⟩
  · intro a b c
    cases a <;> cases b <;> cases c <;> decide
  · intro f c1 c2
    simp [console_print_events, accessesLocked]

/-- C8: in every interleaving of the statements of `data_process_task` and
`console_print_task`, each triple the controller prints inside its critical
section is the aggregator state after exactly `k` whole updates, for some `k`
not above the number of readings dequeued so far, and the printed
`sample_count` is that `k`; a half-applied update is never printed. -/
theorem atomic_snapshot (moves : List Move) :
    ∀ r ∈ (Sys.init.run moves).reports,
      ∃ k, k ≤ (Sys.init.run moves).received.length ∧
        r = data_process_run Shared.init ((Sys.init.run moves).received.take k) ∧
        r.sample_count = k := by
  obtain ⟨done, hrec, _, _, _, _, _, hrep⟩ := Sys.Inv_run moves Sys.init [] Sys.Inv_init
  intro r hr
  obtain ⟨k, hk, e⟩ := hrep r hr
  refine ⟨k, ?_, ?_, ?_⟩
  · rw [hrec, List.length_append]; omega
  · rw [hrec, List.take_append_of_le_length hk]; exact e
  · have := (data_process_run_sums (done.take k) Shared.init (by simp [Shared.init])).1
    rw [e, this]
    simp [Shared.init, List.length_take, hk]

/-- C8 witness: one reading (25, 40) is queued; the aggregator dequeues it,
takes the lock and writes `temp_avg`; the controller runs its policy and then
stays blocked at its take; the aggregator finishes and gives the lock; the
controller takes it and prints the triple (25, 40, 1). -/
theorem atomic_snapshot_witness :
    (⟨25, 40, 1⟩ : Shared) ∈
      (Sys.init.run [Move.enqueue ⟨25, 40, 1⟩, Move.aggregator, Move.aggregator,
        Move.aggregator, Move.controller, Move.controller, Move.aggregator, Move.aggregator,
        Move.aggregator, Move.controller, Move.controller, Move.controller,
        Move.controller]).reports ∧
    ∃ k, k ≤ (Sys.init.run [Move.enqueue ⟨25, 40, 1⟩, Move.aggregator, Move.aggregator,
        Move.aggregator, Move.controller, Move.controller, Move.aggregator, Move.aggregator,
        Move.aggregator, Move.controller, Move.controller, Move.controller,
        Move.controller]).received.length ∧
      (⟨25, 40, 1⟩ : Shared) = data_process_run Shared.init
        ((Sys.init.run [Move.enqueue ⟨25, 40, 1⟩, Move.aggregator, Move.aggregator,
          Move.aggregator, Move.controller, Move.controller, Move.aggregator, Move.aggregator,
          Move.aggregator, Move.controller, Move.controller, Move.controller,
          Move.controller]).received.take k) ∧
      (⟨25, 40, 1⟩ : Shared).sample_count = k := by
  have hmem : (⟨25, 40, 1⟩ : Shared) ∈
      (Sys.init.run [Move.enqueue ⟨25, 40, 1⟩, Move.aggregator, Move.aggregator,
        Move.aggregator, Move.controller, Move.controller, Move.aggregator, Move.aggregator,
        Move.aggregator, Move.controller, Move.controller, Move.controller,
        Move.controller]).reports := by
    simp [Sys.run, Sys.step, Sys.aggregator, Sys.controller, Sys.init, xQueueSend,
      xQueueReceive, xSemaphoreTake, xSemaphoreGive, SENSOR_QUEUE_LENGTH, Shared.init,
      console_print_policy]
  exact ⟨hmem, atomic_snapshot _ _ hmem⟩

/-- C10: in the trace of any number of loop iterations of each of the three
tasks, no blocking call (`xQueueReceive`, `xQueueSend`, `vTaskDelay`, a second
`xSemaphoreTake`) happens while `data_mutex` is held and the lock is released
again before each iteration ends; the producer's trace contains no
`xSemaphoreTake` at all. -/
theorem no_blocking_while_locked :
    (∀ inputs : List (Bool × Bool × Bool),
      lockWalk false (loop_events (fun i => sensor_collect_events i.1 i.2.1 i.2.2) inputs)
        = some false ∧
      Event.xSemaphoreTake ∉ loop_events (fun i => sensor_collect_events i.1 i.2.1 i.2.2) inputs) ∧
    (∀ inputs : List (Bool × Bool),
      lockWalk false (loop_events (fun i => data_process_events i.1 i.2) inputs) = some false) ∧
    (∀ inputs : List (Int × Int × Int),
      lockWalk false (loop_events (fun i => console_print_events i.1 i.2.1 i.2.2) inputs)
        = some false) ∧
    (∀ sent stack_low debug_log : Bool,
      lockWalk false (sensor_collect_events sent stack_low debug_log) = some false) ∧
    (∀ received debug_log : Bool,
      lockWalk false (data_process_events received debug_log) = some false) ∧
    (∀ suspend_flag c1 c2 : Int,
      lockWalk false (console_print_events suspend_flag c1 c2) = some false) :=
  ⟨fun inputs => ⟨lockWalk_loop _ (fun i => sensor_collect_events_walk i.1 i.2.1 i.2.2) inputs,
      take_not_mem_loop _ (fun i => sensor_collect_events_no_take i.1 i.2.1 i.2.2) inputs⟩,
    fun inputs => lockWalk_loop _ (fun i => data_process_events_walk i.1 i.2) inputs,
    fun inputs => lockWalk_loop _ (fun i => console_print_events_walk i.1 i.2.1 i.2.2) inputs,
    sensor_collect_events_walk, data_process_events_walk, console_print_events_walk⟩

/-! ## Lockstep schedule -/

/-- The lockstep schedule keeps the queue empty and raises `sample_count` by
one per reading. -/
theorem lockstep_run (r1 r2 : Nat) (n : Nat) (p : Pipeline)
    (hq : p.sensor_queue = []) (hs : p.collect_suspended = false) :
    (p.run (lockstep r1 r2 n)).sensor_queue = [] ∧
    (p.run (lockstep r1 r2 n)).collect_suspended = false ∧
    (p.run (lockstep r1 r2 n)).suspend_flag = p.suspend_flag ∧
    (p.run (lockstep r1 r2 n)).shared.sample_count = p.shared.sample_count + n := by
  induction n generalizing p with
  | zero => simp [lockstep, Pipeline.run, hq, hs]
  | succ n ih =>
    have h2 : (p.step (Sched.collect r1 r2)).step Sched.process
        = { p with shared := data_process_update p.shared (sensor_collect_data r1 r2 p) } := by
      simp [Pipeline.step, hs, sensor_collect_cycle, xQueueSend, hq, SENSOR_QUEUE_LENGTH,
        data_process_cycle, xQueueReceive]
    obtain ⟨a, b, c, d⟩ := ih ((p.step (Sched.collect r1 r2)).step Sched.process)
      (by rw [h2]; exact hq) (by rw [h2]; exact hs)
    simp only [lockstep, Pipeline.run_step_cons]
    refine ⟨a, b, by rw [c, h2], ?_⟩
    rw [d, h2]
    simp only [data_process_update]
    push_cast; ring

/-! ## Bounds lemmas -/

/-- One running-mean update keeps the mean between the bounds of the values
seen: with no value yet the new mean is the value itself, otherwise it is a
weighted mean of the old mean and the value. -/
theorem mean_update_bounds (lo hi avg t : ℚ) (n : Int) (hn : 0 ≤ n)
    (ha : 0 < n → lo ≤ avg ∧ avg ≤ hi) (ht : lo ≤ t ∧ t ≤ hi) :
    lo ≤ (avg * n + t) / (n + 1) ∧ (avg * n + t) / (n + 1) ≤ hi := by
  have hn' : (0 : ℚ) ≤ (n : ℚ) := by exact_mod_cast hn
  have hpos : (0 : ℚ) < (n : ℚ) + 1 := by linarith
  rw [le_div_iff₀ hpos, div_le_iff₀ hpos]
  rcases eq_or_lt_of_le hn with h0 | h0
  · rw [← h0]; simp; exact ht
  · obtain ⟨a1, a2⟩ := ha h0
    have b1 := mul_le_mul_of_nonneg_right a1 hn'
    have b2 := mul_le_mul_of_nonneg_right a2 hn'
    constructor <;> nlinarith [ht.1, ht.2]

/-- The update step keeps both averages within the bounds of the readings. -/
theorem data_process_update_bounds (lo hi lo2 hi2 : ℚ) (s : Shared) (d : sensor_data_t)
    (hn : 0 ≤ s.sample_count)
    (hs : 0 < s.sample_count →
      (lo ≤ s.temp_avg ∧ s.temp_avg ≤ hi) ∧ (lo2 ≤ s.humi_avg ∧ s.humi_avg ≤ hi2))
    (ht : lo ≤ d.temperature ∧ d.temperature ≤ hi)
    (hh : lo2 ≤ d.humidity ∧ d.humidity ≤ hi2) :
    0 < (data_process_update s d).sample_count ∧
    (lo ≤ (data_process_update s d).temp_avg ∧ (data_process_update s d).temp_avg ≤ hi) ∧
    (lo2 ≤ (data_process_update s d).humi_avg ∧ (data_process_update s d).humi_avg ≤ hi2) := by
  simp only [data_process_update]
  exact ⟨by omega,
    mean_update_bounds lo hi s.temp_avg d.temperature s.sample_count hn
      (fun h => (hs h).1) ht,
    mean_update_bounds lo2 hi2 s.humi_avg d.humidity s.sample_count hn
      (fun h => (hs h).2) hh⟩

/-- Folding the update step over readings within the bounds keeps the
averages within the bounds once a reading has been counted. -/
theorem data_process_run_bounds (lo hi lo2 hi2 : ℚ) (l : List sensor_data_t) (s : Shared)
    (hn : 0 ≤ s.sample_count)
    (hs : 0 < s.sample_count →
      (lo ≤ s.temp_avg ∧ s.temp_avg ≤ hi) ∧ (lo2 ≤ s.humi_avg ∧ s.humi_avg ≤ hi2))
    (ht : ∀ d ∈ l, lo ≤ d.temperature ∧ d.temperature ≤ hi)
    (hh : ∀ d ∈ l, lo2 ≤ d.humidity ∧ d.humidity ≤ hi2) :
    0 ≤ (data_process_run s l).sample_count ∧
    (0 < (data_process_run s l).sample_count →
      (lo ≤ (data_process_run s l).temp_avg ∧ (data_process_run s l).temp_avg ≤ hi) ∧
      (lo2 ≤ (data_process_run s l).humi_avg ∧ (data_process_run s l).humi_avg ≤ hi2)) := by
  induction l generalizing s with
  | nil => exact ⟨hn, hs⟩
  | cons d l ih =>
    rw [data_process_run_cons]
    obtain ⟨p1, p2⟩ := data_process_update_bounds lo hi lo2 hi2 s d hn hs
      (ht d (List.mem_cons_self d l)) (hh d (List.mem_cons_self d l))
    exact ih (data_process_update s d) (le_of_lt p1) (fun _ => p2)
      (fun x hx => ht x (List.mem_cons_of_mem d hx))
      (fun x hx => hh x (List.mem_cons_of_mem d hx))

/-- The ranges of a synthesized reading. -/
theorem synthesize_bounds (r1 r2 : Nat) (c : Int) :
    (25 ≤ (synthesize r1 r2 c).temperature ∧ (synthesize r1 r2 c).temperature ≤ 349 / 10) ∧
    (40 ≤ (synthesize r1 r2 c).humidity ∧ (synthesize r1 r2 c).humidity ≤ 699 / 10) := by
  have h1 : ((r1 % 100 : Nat) : ℚ) ≤ 99 := by
    have : r1 % 100 ≤ 99 := by omega
    exact_mod_cast this
  have h2 : ((r2 % 300 : Nat) : ℚ) ≤ 299 := by
    have : r2 % 300 ≤ 299 := by omega
    exact_mod_cast this
  have h3 : (0 : ℚ) ≤ ((r1 % 100 : Nat) : ℚ) := Nat.cast_nonneg _
  have h4 : (0 : ℚ) ≤ ((r2 % 300 : Nat) : ℚ) := Nat.cast_nonneg _
  simp only [synthesize]
  refine ⟨⟨?_, ?_⟩, ⟨?_, ?_⟩⟩ <;> linarith

/-- A producer cycle leaves the queue alone or appends its reading. -/
theorem sensor_collect_cycle_queue (r1 r2 : Nat) (p : Pipeline) :
    (sensor_collect_cycle r1 r2 p).1.sensor_queue = p.sensor_queue ∨
    (sensor_collect_cycle r1 r2 p).1.sensor_queue
      = p.sensor_queue ++ [synthesize r1 r2 p.shared.sample_count] := by
  by_cases h : p.sensor_queue.length < SENSOR_QUEUE_LENGTH
  · right; simp [sensor_collect_cycle, sensor_collect_data, xQueueSend, h]
  · left; simp [sensor_collect_cycle, xQueueSend, h]

/-- Invariant of the pipeline: every queued reading lies in the producer's
ranges, and so do the averages once a reading has been counted. -/
theorem pipeline_ranges_step (p : Pipeline) (e : Sched)
    (hq : ∀ d ∈ p.sensor_queue,
      (25 ≤ d.temperature ∧ d.temperature ≤ 349 / 10) ∧
      (40 ≤ d.humidity ∧ d.humidity ≤ 699 / 10))
    (hn : 0 ≤ p.shared.sample_count)
    (hs : 0 < p.shared.sample_count →
      (25 ≤ p.shared.temp_avg ∧ p.shared.temp_avg ≤ 349 / 10) ∧
      (40 ≤ p.shared.humi_avg ∧ p.shared.humi_avg ≤ 699 / 10)) :
    (∀ d ∈ (p.step e).sensor_queue,
      (25 ≤ d.temperature ∧ d.temperature ≤ 349 / 10) ∧
      (40 ≤ d.humidity ∧ d.humidity ≤ 699 / 10)) ∧
    0 ≤ (p.step e).shared.sample_count ∧
    (0 < (p.step e).shared.sample_count →
      (25 ≤ (p.step e).shared.temp_avg ∧ (p.step e).shared.temp_avg ≤ 349 / 10) ∧
      (40 ≤ (p.step e).shared.humi_avg ∧ (p.step e).shared.humi_avg ≤ 699 / 10)) := by
  cases e with
  | collect r1 r2 =>
    simp only [Pipeline.step]
    split_ifs
    · exact ⟨hq, hn, hs⟩
    · rw [sensor_collect_cycle_shared]
      refine ⟨?_, hn, hs⟩
      rcases sensor_collect_cycle_queue r1 r2 p with h | h
      · rw [h]; exact hq
      · rw [h]
        intro d hd
        rcases List.mem_append.mp hd with h1 | h1
        · exact hq d h1
        · rw [List.mem_singleton.mp h1]
          exact synthesize_bounds r1 r2 _
  | process =>
    simp only [Pipeline.step, data_process_cycle]
    cases hp : p.sensor_queue with
    | nil => simp only [xQueueReceive]; rw [hp] at hq; exact ⟨by rw [hp]; exact hq, hn, hs⟩
    | cons d rest =>
      rw [hp] at hq
      simp only [xQueueReceive]
      obtain ⟨b1, b2⟩ := data_process_update_bounds 25 (349 / 10) 40 (699 / 10) p.shared d hn hs
        (hq d (List.mem_cons_self d rest)).1 (hq d (List.mem_cons_self d rest)).2
      exact ⟨fun x hx => hq x (List.mem_cons_of_mem d hx), le_of_lt b1, fun _ => b2⟩
  | print => exact ⟨hq, hn, hs⟩

/-- The same over a whole schedule. -/
theorem pipeline_ranges_run (sched : List Sched) (p : Pipeline)
    (hq : ∀ d ∈ p.sensor_queue,
      (25 ≤ d.temperature ∧ d.temperature ≤ 349 / 10) ∧
      (40 ≤ d.humidity ∧ d.humidity ≤ 699 / 10))
    (hn : 0 ≤ p.shared.sample_count)
    (hs : 0 < p.shared.sample_count →
      (25 ≤ p.shared.temp_avg ∧ p.shared.temp_avg ≤ 349 / 10) ∧
      (40 ≤ p.shared.humi_avg ∧ p.shared.humi_avg ≤ 699 / 10)) :
    0 < (p.run sched).shared.sample_count →
      (25 ≤ (p.run sched).shared.temp_avg ∧ (p.run sched).shared.temp_avg ≤ 349 / 10) ∧
      (40 ≤ (p.run sched).shared.humi_avg ∧ (p.run sched).shared.humi_avg ≤ 699 / 10) := by
  induction sched generalizing p with
  | nil => exact hs
  | cons e es ih =>
    rw [Pipeline.run_step_cons]
    obtain ⟨a, b, c⟩ := pipeline_ranges_step p e hq hn hs
    exact ih (p.step e) a b c

/-- C13: for every non-empty list of readings whose temperatures lie in
[lo, hi] and whose humidities lie in [lo2, hi2], after each update step of
`data_process_task` from the initial state (after the first `n` readings,
`n > 0`) `temp_avg` lies in [lo, hi] and `humi_avg` in [lo2, hi2]; and in
every state of the pipeline reachable from the initial one, where readings
come from the producer, `sample_count > 0` gives 25 <= `temp_avg` <= 34.9 and
40 <= `humi_avg` <= 69.9. -/
theorem running_average_bounds (lo hi lo2 hi2 : ℚ) (l : List sensor_data_t) (n : Nat)
    (sched : List Sched) (hn : 0 < n) (hne : l ≠ [])
    (ht : ∀ d ∈ l, lo ≤ d.temperature ∧ d.temperature ≤ hi)
    (hh : ∀ d ∈ l, lo2 ≤ d.humidity ∧ d.humidity ≤ hi2) :
    ((lo ≤ (data_process_run Shared.init (l.take n)).temp_avg ∧
        (data_process_run Shared.init (l.take n)).temp_avg ≤ hi) ∧
      (lo2 ≤ (data_process_run Shared.init (l.take n)).humi_avg ∧
        (data_process_run Shared.init (l.take n)).humi_avg ≤ hi2)) ∧
    (0 < (Pipeline.init.run sched).shared.sample_count →
      (25 ≤ (Pipeline.init.run sched).shared.temp_avg ∧
        (Pipeline.init.run sched).shared.temp_avg ≤ 349 / 10) ∧
      (40 ≤ (Pipeline.init.run sched).shared.humi_avg ∧
        (Pipeline.init.run sched).shared.humi_avg ≤ 699 / 10)) := by
  constructor
  · have hcount := (data_process_run_sums (l.take n) Shared.init (by simp [Shared.init])).1
    have hlen : 0 < (l.take n).length := by
      rw [List.length_take]
      have : 0 < l.length := List.length_pos.mpr hne
      omega
    have hpos : 0 < (data_process_run Shared.init (l.take n)).sample_count := by
      rw [hcount]; simp only [Shared.init]; omega
    exact (data_process_run_bounds lo hi lo2 hi2 (l.take n) Shared.init
      (by simp [Shared.init]) (fun h => absurd h (by simp [Shared.init]))
      (fun d hd => ht d (List.mem_of_mem_take hd))
      (fun d hd => hh d (List.mem_of_mem_take hd))).2 hpos
  · exact pipeline_ranges_run sched Pipeline.init (by simp [Pipeline.init])
      (by simp [Pipeline.init, Shared.init])
      (fun h => absurd h (by simp [Pipeline.init, Shared.init]))

/-- C13 witness: readings (25, 40), (27, 44), (26, 69) with bounds [25, 27] and
[40, 69]; after two updates `temp_avg` is 26. -/
theorem running_average_bounds_witness :
    (0 < 2) ∧
    ([⟨25, 40, 1⟩, ⟨27, 44, 2⟩, ⟨26, 69, 3⟩] : List sensor_data_t) ≠ [] ∧
    ((25 ≤ (data_process_run Shared.init
        (([⟨25, 40, 1⟩, ⟨27, 44, 2⟩, ⟨26, 69, 3⟩] : List sensor_data_t).take 2)).temp_avg ∧
      (data_process_run Shared.init
        (([⟨25, 40, 1⟩, ⟨27, 44, 2⟩, ⟨26, 69, 3⟩] : List sensor_data_t).take 2)).temp_avg ≤ 27) ∧
     (40 ≤ (data_process_run Shared.init
        (([⟨25, 40, 1⟩, ⟨27, 44, 2⟩, ⟨26, 69, 3⟩] : List sensor_data_t).take 2)).humi_avg ∧
      (data_process_run Shared.init
        (([⟨25, 40, 1⟩, ⟨27, 44, 2⟩, ⟨26, 69, 3⟩] : List sensor_data_t).take 2)).humi_avg ≤ 69)) ∧
    (data_process_run Shared.init
      (([⟨25, 40, 1⟩, ⟨27, 44, 2⟩, ⟨26, 69, 3⟩] : List sensor_data_t).take 2)).temp_avg = 26 := by
  have h := running_average_bounds 25 27 40 69 [⟨25, 40, 1⟩, ⟨27, 44, 2⟩, ⟨26, 69, 3⟩] 2 []
    (by decide) (by simp)
    (by intro d hd; simp at hd; rcases hd with h | h | h <;> rw [h] <;> norm_num)
    (by intro d hd; simp at hd; rcases hd with h | h | h <;> rw [h] <;> norm_num)
  refine ⟨by decide, by simp, h.1, ?_⟩
  norm_num [data_process_run, data_process_update, Shared.init]

/-! ## Statement-level suspension lemmas -/

/-- An aggregator statement moves a reading from the queue into flight or
from flight into `sample_count`, or moves none; it never touches the flag. -/
theorem Sys.aggregator_total (s : Sys) :
    s.aggregator.shared.sample_count + s.aggregator.sensor_queue.length + s.aggregator.inFlight
      = s.shared.sample_count + s.sensor_queue.length + s.inFlight ∧
    s.shared.sample_count ≤ s.aggregator.shared.sample_count ∧
    s.aggregator.suspend_flag = s.suspend_flag := by
  cases hpc : s.agg_pc with
  | receive =>
    cases hq : s.sensor_queue with
    | nil => simp [Sys.aggregator, Sys.inFlight, xQueueReceive, hpc, hq, AggPc.pending]
    | cons d rest =>
      simp [Sys.aggregator, Sys.inFlight, hpc, hq, xQueueReceive, AggPc.pending]
      ring
  | take =>
    cases hm : s.data_mutex <;>
      simp [Sys.aggregator, Sys.inFlight, xSemaphoreTake, hpc, hm, AggPc.pending]
  | set_temp => simp [Sys.aggregator, Sys.inFlight, hpc, AggPc.pending]
  | set_humi => simp [Sys.aggregator, Sys.inFlight, hpc, AggPc.pending]
  | incr => simp [Sys.aggregator, Sys.inFlight, hpc, AggPc.pending]; ring
  | give => simp [Sys.aggregator, Sys.inFlight, hpc, AggPc.pending]
  | log => simp [Sys.aggregator, Sys.inFlight, hpc, AggPc.pending]
  | delay => simp [Sys.aggregator, Sys.inFlight, hpc, AggPc.pending]

/-- A controller statement leaves the count, the queue and the aggregator
alone; the flag changes only at the policy. -/
theorem Sys.controller_keeps (s : Sys) :
    s.controller.shared.sample_count = s.shared.sample_count ∧
    s.controller.sensor_queue = s.sensor_queue ∧
    s.controller.agg_pc = s.agg_pc ∧
    s.controller.suspend_flag
      = (if s.ctl_pc = CtlPc.policy then
          (console_print_policy s.suspend_flag s.shared.sample_count s.shared.sample_count).2
         else s.suspend_flag) := by
  cases hpc : s.ctl_pc with
  | take => cases hm : s.data_mutex <;> simp [Sys.controller, xSemaphoreTake, hpc, hm]
  | _ => simp [Sys.controller, hpc]

/-- A controller statement other than the policy issues no call. -/
theorem Tasks.step_controller_other (t : Tasks) (h : t.sys.ctl_pc ≠ CtlPc.policy) :
    t.step Move.controller = { t with sys := t.sys.controller } := by
  cases hpc : t.sys.ctl_pc <;> simp_all [Tasks.step]

/-- The policy statement with the flag at 1: it resumes when the count is
above 30 and does nothing otherwise. -/
theorem Tasks.step_policy_flag_one (t : Tasks) (hpc : t.sys.ctl_pc = CtlPc.policy)
    (hf : t.sys.suspend_flag = 1) :
    (30 < t.sys.shared.sample_count →
      t.step Move.controller
        = { sys := t.sys.controller, collect_suspended := false,
            calls := t.calls ++ [CtlAction.vTaskResume] } ∧
      (t.step Move.controller).sys.suspend_flag = 2) ∧
    (¬ 30 < t.sys.shared.sample_count →
      t.step Move.controller = { t with sys := t.sys.controller } ∧
      (t.step Move.controller).sys.suspend_flag = 1) := by
  constructor
  · intro h
    simp [Tasks.step, Sys.controller, hpc, console_print_policy, hf, h]
  · intro h
    simp [Tasks.step, Sys.controller, hpc, console_print_policy, hf, h]

/-- While the flag is 1 and the producer suspended, a move keeps the total of
counted, queued and in-flight readings within `bound` and issues no call,
unless it is the policy reading a count above 30, which sets the flag to 2. -/
theorem Tasks.suspended_step (bound : Int) (t : Tasks) (m : Move)
    (hf : t.sys.suspend_flag = 1) (hs : t.collect_suspended = true)
    (hb : t.sys.shared.sample_count + t.sys.sensor_queue.length + t.sys.inFlight ≤ bound) :
    ((t.step m).sys.suspend_flag = 1 ∧ (t.step m).collect_suspended = true ∧
      (t.step m).sys.shared.sample_count + (t.step m).sys.sensor_queue.length
        + (t.step m).sys.inFlight ≤ bound ∧
      (t.step m).calls = t.calls) ∨
    ((t.step m).sys.suspend_flag = 2 ∧ 30 < t.sys.shared.sample_count) := by
  cases m with
  | enqueue d =>
    left
    have e : t.step (Move.enqueue d) = t := by simp [Tasks.step, hs]
    rw [e]
    exact ⟨hf, hs, hb, rfl⟩
  | aggregator =>
    left
    obtain ⟨a1, _, a3⟩ := Sys.aggregator_total t.sys
    refine ⟨?_, hs, ?_, rfl⟩
    · show t.sys.aggregator.suspend_flag = 1
      rw [a3, hf]
    · show t.sys.aggregator.shared.sample_count + t.sys.aggregator.sensor_queue.length
        + t.sys.aggregator.inFlight ≤ bound
      rw [a1]; exact hb
  | controller =>
    obtain ⟨k1, k2, k3, k4⟩ := Sys.controller_keeps t.sys
    have hin : t.sys.controller.inFlight = t.sys.inFlight := by
      simp only [Sys.inFlight, k3]
    have htot : t.sys.controller.shared.sample_count + t.sys.controller.sensor_queue.length
        + t.sys.controller.inFlight ≤ bound := by
      rw [k1, k2, hin]; exact hb
    by_cases hpc : t.sys.ctl_pc = CtlPc.policy
    · obtain ⟨p1, p2⟩ := Tasks.step_policy_flag_one t hpc hf
      by_cases h30 : 30 < t.sys.shared.sample_count
      · right; exact ⟨(p1 h30).2, h30⟩
      · left
        obtain ⟨e, f⟩ := p2 h30
        refine ⟨f, ?_, ?_, ?_⟩
        · rw [e]; exact hs
        · rw [e]; exact htot
        · rw [e]
    · left
      rw [Tasks.step_controller_other t hpc]
      refine ⟨?_, hs, htot, rfl⟩
      show t.sys.controller.suspend_flag = 1
      rw [k4, if_neg hpc, hf]

/-- Once the flag is 2 it stays 2. -/
theorem Tasks.done_step (t : Tasks) (m : Move) (hf : t.sys.suspend_flag = 2) :
    (t.step m).sys.suspend_flag = 2 := by
  cases m with
  | enqueue d =>
    simp only [Tasks.step]
    split_ifs
    · exact hf
    · exact hf
  | aggregator =>
    simp only [Tasks.step]
    rw [(Sys.aggregator_total t.sys).2.2, hf]
  | controller =>
    have k4 := (Sys.controller_keeps t.sys).2.2.2
    have hcalc : t.sys.controller.suspend_flag = 2 := by
      rw [k4]
      split_ifs
      · simp [console_print_policy, hf]
      · exact hf
    simp only [Tasks.step]
    cases hpc : t.sys.ctl_pc <;> simp only [] <;> try exact hcalc
    cases hact : (console_print_policy t.sys.suspend_flag t.sys.shared.sample_count
      t.sys.shared.sample_count).1 <;> simp only [] <;> exact hcalc

/-- The same over a run. -/
theorem Tasks.done_run (moves : List Move) (t : Tasks) (hf : t.sys.suspend_flag = 2) :
    (t.run moves).sys.suspend_flag = 2 := by
  induction moves generalizing t with
  | nil => exact hf
  | cons m ms ih =>
    have hrun : t.run (m :: ms) = (t.step m).run ms := rfl
    rw [hrun]
    exact ih (t.step m) (Tasks.done_step t m hf)

/-- Over a run: either the flag is still 1 with the producer suspended, the
total within `bound` and no call issued since, or the flag is 2. -/
theorem Tasks.suspended_run (bound : Int) (moves : List Move) (t : Tasks)
    (hf : t.sys.suspend_flag = 1) (hs : t.collect_suspended = true)
    (hb : t.sys.shared.sample_count + t.sys.sensor_queue.length + t.sys.inFlight ≤ bound) :
    ((t.run moves).sys.suspend_flag = 1 ∧ (t.run moves).collect_suspended = true ∧
      (t.run moves).sys.shared.sample_count + (t.run moves).sys.sensor_queue.length
        + (t.run moves).sys.inFlight ≤ bound ∧
      (t.run moves).calls = t.calls) ∨
    ((t.run moves).sys.suspend_flag = 2 ∧ 30 < bound) := by
  induction moves generalizing t with
  | nil => left; exact ⟨hf, hs, hb, rfl⟩
  | cons m ms ih =>
    have hrun : t.run (m :: ms) = (t.step m).run ms := rfl
    rw [hrun]
    rcases Tasks.suspended_step bound t m hf hs hb with ⟨a, b, c, d⟩ | ⟨a, b⟩
    · rcases ih (t.step m) a b c with ⟨e, f, g, h⟩ | h
      · left; exact ⟨e, f, g, h.trans d⟩
      · right; exact h
    · right
      have hq : (0 : Int) ≤ (t.sys.sensor_queue.length : Int) := Int.natCast_nonneg _
      have hi : (0 : Int) ≤ (t.sys.inFlight : Int) := Int.natCast_nonneg _
      exact ⟨Tasks.done_run ms (t.step m) a, by omega⟩

/-- The policy issues `vTaskSuspend` only from flag 0 with a count above 20,
and sets the flag to 1. -/
theorem console_print_policy_suspend (f c1 c2 : Int)
    (h : (console_print_policy f c1 c2).1 = CtlAction.vTaskSuspend) :
    f = 0 ∧ 20 < c1 ∧ (console_print_policy f c1 c2).2 = 1 := by
  unfold console_print_policy at h ⊢
  by_cases h1 : c1 > 20 ∧ f = 0
  · simp [h1]
  · rw [if_neg h1] at h
    by_cases h2 : f = 1 ∧ c2 > 30
    · rw [if_pos h2] at h; simp at h
    · rw [if_neg h2] at h; simp at h

/-- The state right after the policy statement has issued `vTaskSuspend`. -/
theorem Tasks.step_policy_suspend (t : Tasks) (hpc : t.sys.ctl_pc = CtlPc.policy)
    (h : (console_print_policy t.sys.suspend_flag t.sys.shared.sample_count
      t.sys.shared.sample_count).1 = CtlAction.vTaskSuspend) :
    t.step Move.controller
      = { sys := t.sys.controller, collect_suspended := true,
          calls := t.calls ++ [CtlAction.vTaskSuspend] } ∧
    t.sys.controller.suspend_flag = 1 := by
  obtain ⟨_, _, h2⟩ := console_print_policy_suspend _ _ _ h
  constructor
  · simp [Tasks.step, hpc, h]
  · rw [(Sys.controller_keeps t.sys).2.2.2, if_pos hpc, h2]

/-- C12 (amended): statement by statement, let the policy of
`console_print_task` issue `vTaskSuspend` in a state with `sample_count = c`,
`k` queued readings and `j` readings in flight (dequeued at line 56 but not
yet counted at line 63; `j` is 0 or 1). As long as the flag is still 1,
`sample_count` is at most `c + k + j`. If `c + k + j <= 30`, then in every
later reachable state `sample_count > 30` fails, `suspend_flag` is still 1,
the producer is still suspended and no further call has been issued, so
`vTaskResume` is never called. -/
theorem resume_unreachable_in_flight (t0 : Tasks) (moves : List Move)
    (hpc : t0.sys.ctl_pc = CtlPc.policy)
    (hs : (console_print_policy t0.sys.suspend_flag t0.sys.shared.sample_count
      t0.sys.shared.sample_count).1 = CtlAction.vTaskSuspend) :
    (((t0.step Move.controller).run moves).sys.suspend_flag = 1 →
      ((t0.step Move.controller).run moves).sys.shared.sample_count
        ≤ t0.sys.shared.sample_count + t0.sys.sensor_queue.length + t0.sys.inFlight) ∧
    (t0.sys.shared.sample_count + t0.sys.sensor_queue.length + t0.sys.inFlight ≤ 30 →
      ((t0.step Move.controller).run moves).sys.shared.sample_count
        ≤ t0.sys.shared.sample_count + t0.sys.sensor_queue.length + t0.sys.inFlight ∧
      ¬ ((t0.step Move.controller).run moves).sys.shared.sample_count > 30 ∧
      ((t0.step Move.controller).run moves).sys.suspend_flag = 1 ∧
      ((t0.step Move.controller).run moves).collect_suspended = true ∧
      ((t0.step Move.controller).run moves).calls = t0.calls ++ [CtlAction.vTaskSuspend]) := by
  obtain ⟨e, hf⟩ := Tasks.step_policy_suspend t0 hpc hs
  obtain ⟨k1, k2, k3, _⟩ := Sys.controller_keeps t0.sys
  have hin : t0.sys.controller.inFlight = t0.sys.inFlight := by
    simp only [Sys.inFlight, k3]
  have hf1 : (t0.step Move.controller).sys.suspend_flag = 1 := by rw [e]; exact hf
  have hs1 : (t0.step Move.controller).collect_suspended = true := by rw [e]
  have hc1 : (t0.step Move.controller).calls = t0.calls ++ [CtlAction.vTaskSuspend] := by rw [e]
  have hb1 : (t0.step Move.controller).sys.shared.sample_count
      + (t0.step Move.controller).sys.sensor_queue.length
      + (t0.step Move.controller).sys.inFlight
      ≤ t0.sys.shared.sample_count + t0.sys.sensor_queue.length + t0.sys.inFlight := by
    rw [e]
    show t0.sys.controller.shared.sample_count + t0.sys.controller.sensor_queue.length
      + t0.sys.controller.inFlight ≤ _
    rw [k1, k2, hin]
  have hq : (0 : Int) ≤ (((t0.step Move.controller).run moves).sys.sensor_queue.length : Int) :=
    Int.natCast_nonneg _
  have hi : (0 : Int) ≤ (((t0.step Move.controller).run moves).sys.inFlight : Int) :=
    Int.natCast_nonneg _
  have hrun := Tasks.suspended_run _ moves (t0.step Move.controller) hf1 hs1 hb1
  constructor
  · intro h1
    rcases hrun with ⟨_, _, c, _⟩ | ⟨a, _⟩
    · omega
    · rw [h1] at a; exact absurd a (by decide)
  · intro h30
    rcases hrun with ⟨a, b, c, d⟩ | ⟨_, b⟩
    · exact ⟨by omega, by omega, a, b, d.trans hc1⟩
    · omega

set_option maxRecDepth 100000 in
/-- C12 witness: 21 readings are sent and counted one by one, nine more are
queued, and the policy issues the suspend at count 21 with 9 queued and none
in flight; after the aggregator has drained the queue and the controller has
run a further cycle the flag is still 1 and no resume was issued. -/
theorem resume_unreachable_in_flight_witness :
    (Tasks.init.run (lockstepMoves ⟨25, 40, 1⟩ 21
      ++ List.replicate 9 (Move.enqueue ⟨26, 41, 22⟩))).sys.ctl_pc = CtlPc.policy ∧
    (Tasks.init.run (lockstepMoves ⟨25, 40, 1⟩ 21
      ++ List.replicate 9 (Move.enqueue ⟨26, 41, 22⟩))).sys.shared.sample_count = 21 ∧
    (Tasks.init.run (lockstepMoves ⟨25, 40, 1⟩ 21
      ++ List.replicate 9 (Move.enqueue ⟨26, 41, 22⟩))).sys.sensor_queue.length = 9 ∧
    (Tasks.init.run (lockstepMoves ⟨25, 40, 1⟩ 21
      ++ List.replicate 9 (Move.enqueue ⟨26, 41, 22⟩))).sys.inFlight = 0 ∧
    ((((Tasks.init.run (lockstepMoves ⟨25, 40, 1⟩ 21
      ++ List.replicate 9 (Move.enqueue ⟨26, 41, 22⟩))).step Move.controller).run
        (List.replicate 80 Move.aggregator ++ List.replicate 7 Move.controller)).sys.suspend_flag
      = 1) ∧
    ((((Tasks.init.run (lockstepMoves ⟨25, 40, 1⟩ 21
      ++ List.replicate 9 (Move.enqueue ⟨26, 41, 22⟩))).step Move.controller).run
        (List.replicate 80 Move.aggregator ++ List.replicate 7 Move.controller)).calls
      = [CtlAction.vTaskSuspend]) := by
  have h := (resume_unreachable_in_flight
    (Tasks.init.run (lockstepMoves ⟨25, 40, 1⟩ 21
      ++ List.replicate 9 (Move.enqueue ⟨26, 41, 22⟩)))
    (List.replicate 80 Move.aggregator ++ List.replicate 7 Move.controller)
    (by decide) (by decide)).2 (by decide)
  exact ⟨by decide, by decide, by decide, by decide, h.2.2.1, h.2.2.2.2⟩

set_option maxRecDepth 100000 in
/-- C12 (refuted as stated): 21 readings are sent and counted one by one, ten
more are queued and the aggregator dequeues one of them (line 56) without yet
counting it. The policy then issues the suspend at `sample_count = 21` with
`k = 9` queued, so `sample_count + k <= 30`. With the producer suspended the
aggregator counts the reading in flight and the nine queued ones, the count
reaches 31, and the next policy statement issues `vTaskResume` and sets the
flag to 2. -/
theorem resume_reached_with_reading_in_flight :
    (Tasks.init.run (lockstepMoves ⟨25, 40, 1⟩ 21
      ++ List.replicate 10 (Move.enqueue ⟨26, 41, 22⟩) ++ [Move.aggregator])).sys.ctl_pc
      = CtlPc.policy ∧
    ((Tasks.init.run (lockstepMoves ⟨25, 40, 1⟩ 21
      ++ List.replicate 10 (Move.enqueue ⟨26, 41, 22⟩) ++ [Move.aggregator])).step
        Move.controller).calls = [CtlAction.vTaskSuspend] ∧
    (Tasks.init.run (lockstepMoves ⟨25, 40, 1⟩ 21
      ++ List.replicate 10 (Move.enqueue ⟨26, 41, 22⟩) ++ [Move.aggregator])).sys.shared.sample_count
      = 21 ∧
    (Tasks.init.run (lockstepMoves ⟨25, 40, 1⟩ 21
      ++ List.replicate 10 (Move.enqueue ⟨26, 41, 22⟩) ++ [Move.aggregator])).sys.sensor_queue.length
      = 9 ∧
    (((Tasks.init.run (lockstepMoves ⟨25, 40, 1⟩ 21
      ++ List.replicate 10 (Move.enqueue ⟨26, 41, 22⟩) ++ [Move.aggregator])).step
        Move.controller).run
      (List.replicate 79 Move.aggregator ++ List.replicate 7 Move.controller)).sys.shared.sample_count
      = 31 ∧
    (((Tasks.init.run (lockstepMoves ⟨25, 40, 1⟩ 21
      ++ List.replicate 10 (Move.enqueue ⟨26, 41, 22⟩) ++ [Move.aggregator])).step
        Move.controller).run
      (List.replicate 79 Move.aggregator ++ List.replicate 7 Move.controller)).sys.suspend_flag
      = 2 ∧
    (((Tasks.init.run (lockstepMoves ⟨25, 40, 1⟩ 21
      ++ List.replicate 10 (Move.enqueue ⟨26, 41, 22⟩) ++ [Move.aggregator])).step
        Move.controller).run
      (List.replicate 79 Move.aggregator ++ List.replicate 7 Move.controller)).calls
      = [CtlAction.vTaskSuspend, CtlAction.vTaskResume] := by
  decide

end MultiTask

/-! ## PWM breathing ramp: lemmas and claim -/

namespace GpioPwm

theorem UINT32_SIZE_eq : UINT32_SIZE = 4294967296 := by norm_num [UINT32_SIZE]

theorem max_duty_eq : max_duty = 1023 := by decide

theorem pwm_after_add (m n : Nat) (s : PwmState) :
    pwm_breath_led_task_after (m + n) s
      = pwm_breath_led_task_after n (pwm_breath_led_task_after m s) := by
  induction m generalizing s with
  | zero => simp [pwm_breath_led_task_after]
  | succ m ih =>
    rw [Nat.succ_add]
    simp only [pwm_breath_led_task_after]
    exact ih _

theorem pwm_duties_add (m n : Nat) (s : PwmState) :
    pwm_breath_led_task_duties (m + n) s
      = pwm_breath_led_task_duties m s
          ++ pwm_breath_led_task_duties n (pwm_breath_led_task_after m s) := by
  induction m generalizing s with
  | zero => simp [pwm_breath_led_task_duties, pwm_breath_led_task_after]
  | succ m ih =>
    rw [Nat.succ_add]
    simp only [pwm_breath_led_task_duties, pwm_breath_led_task_after]
    cases (pwm_breath_led_task_step s).1 <;> simp [ih]

/-- A step of the descending loop always runs the body and stays in the
loop. -/
theorem pwm_step_down (c : Nat) :
    pwm_breath_led_task_step { ramp := Ramp.down, current_duty := c }
      = (some c, { ramp := Ramp.down, current_duty := (c + UINT32_SIZE - 1) % UINT32_SIZE }) := by
  simp [pwm_breath_led_task_step]

theorem pwm_step_down_pos (c : Nat) (h : 0 < c) (hc : c < 4294967296) :
    pwm_breath_led_task_step { ramp := Ramp.down, current_duty := c }
      = (some c, { ramp := Ramp.down, current_duty := c - 1 }) := by
  have hm : (c + UINT32_SIZE - 1) % UINT32_SIZE = c - 1 := by
    rw [UINT32_SIZE_eq]; omega
  rw [pwm_step_down, hm]

/-- From `current_duty = 0` the descending loop runs its body with 0 and
wraps `current_duty` to `2 ^ 32 - 1`. -/
theorem pwm_step_down_zero :
    pwm_breath_led_task_step { ramp := Ramp.down, current_duty := 0 }
      = (some 0, { ramp := Ramp.down, current_duty := 4294967295 }) := by
  rw [pwm_step_down, UINT32_SIZE_eq]

theorem pwm_step_up_exit :
    pwm_breath_led_task_step { ramp := Ramp.up, current_duty := 1024 }
      = (none, { ramp := Ramp.down, current_duty := 1023 }) := by
  simp [pwm_breath_led_task_step, max_duty_eq]

theorem pwm_step_up (c : Nat) (h : c ≤ 1023) :
    pwm_breath_led_task_step { ramp := Ramp.up, current_duty := c }
      = (some c, { ramp := Ramp.up, current_duty := c + 1 }) := by
  have h2 : (c + 1) % UINT32_SIZE = c + 1 := by
    rw [UINT32_SIZE_eq]; omega
  simp [pwm_breath_led_task_step, max_duty_eq, h, h2]

/-- The ascending loop from `c` sets `c, c + 1, ...` while it stays within
0..1023. -/
theorem pwm_up_run (k c : Nat) (h : c + k ≤ 1024) :
    pwm_breath_led_task_duties k { ramp := Ramp.up, current_duty := c } = List.range' c k ∧
    pwm_breath_led_task_after k { ramp := Ramp.up, current_duty := c }
      = { ramp := Ramp.up, current_duty := c + k } := by
  induction k generalizing c with
  | zero => simp [pwm_breath_led_task_duties, pwm_breath_led_task_after]
  | succ k ih =>
    obtain ⟨h1, h2⟩ := ih (c + 1) (by omega)
    simp only [pwm_breath_led_task_duties, pwm_breath_led_task_after, pwm_step_up c (by omega)]
    rw [h1, h2]
    exact ⟨by simp [List.range'], by congr 1; omega⟩

/-- The descending loop from `c` sets `c, c - 1, ...` down to 1. -/
theorem pwm_down_run (k c : Nat) (h : k ≤ c) (hc : c < 4294967296) :
    pwm_breath_led_task_duties k { ramp := Ramp.down, current_duty := c }
      = (List.range' (c + 1 - k) k).reverse ∧
    pwm_breath_led_task_after k { ramp := Ramp.down, current_duty := c }
      = { ramp := Ramp.down, current_duty := c - k } := by
  induction k generalizing c with
  | zero => simp [pwm_breath_led_task_duties, pwm_breath_led_task_after]
  | succ k ih =>
    obtain ⟨h1, h2⟩ := ih (c - 1) (by omega) (by omega)
    simp only [pwm_breath_led_task_duties, pwm_breath_led_task_after,
      pwm_step_down_pos c (by omega) hc]
    rw [h1, h2]
    refine ⟨?_, by congr 1; omega⟩
    have e1 : c - 1 + 1 - k = c - k := by omega
    have e2 : c + 1 - (k + 1) = c - k := by omega
    rw [e1, e2, List.range'_concat]
    simp
    omega

/-- The descending loop is never left. -/
theorem pwm_down_stays (n : Nat) (c : Nat) :
    (pwm_breath_led_task_after n { ramp := Ramp.down, current_duty := c }).ramp = Ramp.down := by
  induction n generalizing c with
  | zero => rfl
  | succ n ih =>
    simp only [pwm_breath_led_task_after, pwm_step_down]
    exact ih _


theorem pwm_exit_duties :
    pwm_breath_led_task_duties 1 { ramp := Ramp.up, current_duty := 1024 } = [] ∧
    pwm_breath_led_task_after 1 { ramp := Ramp.up, current_duty := 1024 }
      = { ramp := Ramp.down, current_duty := 1023 } := by
  show pwm_breath_led_task_duties (0 + 1) _ = _ ∧ pwm_breath_led_task_after (0 + 1) _ = _
  simp [pwm_breath_led_task_duties, pwm_breath_led_task_after, pwm_step_up_exit]

theorem pwm_wrap_duties :
    pwm_breath_led_task_duties 2 { ramp := Ramp.down, current_duty := 0 } = [0, 4294967295] ∧
    pwm_breath_led_task_after 2 { ramp := Ramp.down, current_duty := 0 }
      = { ramp := Ramp.down, current_duty := 4294967294 } := by
  show pwm_breath_led_task_duties (0 + 1 + 1) _ = _ ∧ pwm_breath_led_task_after (0 + 1 + 1) _ = _
  simp [pwm_breath_led_task_duties, pwm_breath_led_task_after, pwm_step_down_zero,
    pwm_step_down, UINT32_SIZE_eq]

/-- C11 (code defect evaluated): the duty values passed to `ledc_set_duty` by
`pwm_breath_led_task` are not the endless repetition of 0..1023, 1023..0.
After the first period the descending loop, whose test `current_duty >= 0`
on a `uint32_t` always holds, wraps `current_duty` from 0 to 4294967295 and
passes that value on; the loop is never left, and a duty above 1023 is set. -/
theorem breath_ramp_wraps :
    pwm_breath_led_task_duties 2050 PwmState.init = breath_period ++ [4294967295] ∧
    pwm_breath_led_task_after 2050 PwmState.init
      = { ramp := Ramp.down, current_duty := 4294967294 } ∧
    (∀ n c, (pwm_breath_led_task_after n { ramp := Ramp.down, current_duty := c }).ramp
      = Ramp.down) ∧
    ¬ (∀ d ∈ pwm_breath_led_task_duties 2050 PwmState.init, d ≤ 1023) := by
  obtain ⟨u1, u2⟩ := pwm_up_run 1024 0 (by omega)
  obtain ⟨d1, d2⟩ := pwm_down_run 1023 1023 (by omega) (by omega)
  obtain ⟨x1, x2⟩ := pwm_exit_duties
  obtain ⟨w1, w2⟩ := pwm_wrap_duties
  have u2a : pwm_breath_led_task_after 1024 { ramp := Ramp.up, current_duty := 0 }
      = { ramp := Ramp.up, current_duty := 1024 } := u2
  have d1a : pwm_breath_led_task_duties 1023 { ramp := Ramp.down, current_duty := 1023 }
      = (List.range' 1 1023).reverse := d1
  have d2a : pwm_breath_led_task_after 1023 { ramp := Ramp.down, current_duty := 1023 }
      = { ramp := Ramp.down, current_duty := 0 } := d2
  have hp : breath_period = List.range' 0 1024 ++ ((List.range' 1 1023).reverse ++ [0]) := by
    have e : List.range' 0 1024 = 0 :: List.range' 1 1023 := rfl
    rw [breath_period, List.range_eq_range', e, List.reverse_cons]
  have hd : pwm_breath_led_task_duties 2050 PwmState.init = breath_period ++ [4294967295] := by
    show pwm_breath_led_task_duties (1024 + (1 + (1023 + 2)))
      { ramp := Ramp.up, current_duty := 0 } = _
    rw [pwm_duties_add, u1, u2a, pwm_duties_add, x1, x2, pwm_duties_add, d1a, d2a, w1, hp]
    simp only [List.nil_append, List.append_assoc, List.singleton_append]
  have hs : pwm_breath_led_task_after 2050 PwmState.init
      = { ramp := Ramp.down, current_duty := 4294967294 } := by
    show pwm_breath_led_task_after (1024 + (1 + (1023 + 2)))
      { ramp := Ramp.up, current_duty := 0 } = _
    rw [pwm_after_add, u2a, pwm_after_add, x2, pwm_after_add, d2a, w2]
  refine ⟨hd, hs, pwm_down_stays, ?_⟩
  intro h
  have := h 4294967295 (by rw [hd]; exact List.mem_append_right _ (List.mem_singleton_self _))
  omega

end GpioPwm
